import Mathlib

/-!
# Verification of the festive-tree-lights animation engine

Shallow embedding of the cooperative animation engine from
`FestiveTreeLights.ino` / `WorkState.h`:

* `WorkState`, `AnalogLedsState`, `intermediateState` (the pure fade
  interpolator, with `float` data carried as `ℚ`), plus `roundF32` /
  `intermediateValueF32`, the IEEE-754 binary32 rounding the source's
  single-precision arithmetic performs, for the numerical claims;
* `StatefulController` (timed-state machine): `doControl`, `reset`,
  `animatePwmTransition`, `startPwmTransition`;
* `LoopingController` (repeater);
* `SwitchingController` (round-robin sequencer) over the six concrete
  wired controllers.

All `uint32_t` arithmetic is modelled as `Nat` with explicit reduction
modulo `2 ^ 32` at the single point where the source can overflow
(`_timeSpentOnCurrentState += timeSinceLastCall`); the remaining
subtractions are guarded by comparisons in the source and never wrap.
State indices are `uint8_t` in the source but are only ever incremented
while strictly below `maxStateIndex`, so they never wrap and are
modelled as plain `Nat`.

The `while` loop of `StatefulController::doControl` and the recursive
re-entry of `LoopingController::doControl` are embedded with an explicit
fuel argument equal to their termination measures (`n - i` and
`M - count`); theorems below show any larger fuel gives the same result,
which is exactly the source's termination argument.
-/

namespace Festive

/-- `WorkState` from `WorkState.h`: the outcome of one `doControl` call. -/
structure WorkState where
  finished : Bool
  suggestedSleepTime : Nat
  remainingTime : Nat
deriving DecidableEq, Repr

/-- `finishedWorkState` from `WorkState.h`. -/
def finishedWorkState (remainingTime : Nat) : WorkState :=
  { finished := true, suggestedSleepTime := 0, remainingTime := remainingTime }

/-- `unfinishedWorkState` from `WorkState.h`. -/
def unfinishedWorkState (suggestedSleepTime : Nat) : WorkState :=
  { finished := false, suggestedSleepTime := suggestedSleepTime, remainingTime := 0 }

/-- `AnalogLedsState` from `WorkState.h`: five normalized channel
intensities; the C `float` channels are idealized as exact rationals. -/
structure AnalogLedsState where
  red : ℚ
  amber : ℚ
  green : ℚ
  blue : ℚ
  white : ℚ
deriving DecidableEq, Repr

/-- `analogLedsState` constructor helper from `WorkState.h`. -/
def analogLedsState (red amber green blue white : ℚ) : AnalogLedsState :=
  ⟨red, amber, green, blue, white⟩

/-- Arduino's `constrain(amt, low, high)`. -/
def constrain (x lo hi : ℚ) : ℚ :=
  if x < lo then lo else if hi < x then hi else x

/-- `intermediateValue` from `WorkState.h`, as the exact-arithmetic
idealization of the formula (`float` data carried as exact rationals).
The rounding the source's single-precision arithmetic actually performs
is modelled separately by `roundF32` / `intermediateValueF32` below;
only properties insensitive to that rounding may be read off this
idealized version. -/
def intermediateValue (initial target relativeTime : ℚ) : ℚ :=
  initial + relativeTime * (target - initial)

/-- `intermediateState` from `WorkState.h`: per-channel linear
interpolation with the progress fraction clamped to `[0, 1]`, built on
the exact-arithmetic `intermediateValue` (see the caveat there; the
single-precision evaluation is `intermediateStateF32`). -/
def intermediateState (initial target : AnalogLedsState) (relativeTime : ℚ) :
    AnalogLedsState :=
  let r := constrain relativeTime 0 1
  ⟨intermediateValue initial.red target.red r,
   intermediateValue initial.amber target.amber r,
   intermediateValue initial.green target.green r,
   intermediateValue initial.blue target.blue r,
   intermediateValue initial.white target.white r⟩

/-- `allLedsOn` from `WorkState.h`. -/
def allLedsOn : AnalogLedsState := analogLedsState 1 1 1 1 1

/-- `allLedsOff` from `WorkState.h`. -/
def allLedsOff : AnalogLedsState := analogLedsState 0 0 0 0 0

/-- Base-2 logarithm on `Nat` by repeated halving, with explicit fuel
so that it evaluates inside the kernel. -/
def natLog2Aux : Nat → Nat → Nat
  | 0, _ => 0
  | fuel + 1, n => if n ≤ 1 then 0 else natLog2Aux fuel (n / 2) + 1

/-- `⌊log₂ n⌋` for `n ≥ 1` (and 0 at 0). -/
def natLog2 (n : Nat) : Nat := natLog2Aux n n

/-- `2 ^ k` as a rational, for an integer exponent. -/
def pow2z (k : ℤ) : ℚ :=
  if 0 ≤ k then ((2 ^ k.toNat : ℕ) : ℚ) else 1 / ((2 ^ (-k).toNat : ℕ) : ℚ)

/-- Floor of a rational as an integer. -/
def qfloor (x : ℚ) : ℤ := Int.fdiv x.num (x.den : ℤ)

/-- Round a rational to the nearest integer, ties to even — the
IEEE-754 default rounding direction. -/
def roundHalfEven (x : ℚ) : ℤ :=
  let f := qfloor x
  let r := x - (f : ℚ)
  if r < 1 / 2 then f
  else if 1 / 2 < r then f + 1
  else if f % 2 = 0 then f else f + 1

/-- The exponent `e` with `2 ^ e ≤ x < 2 ^ (e + 1)`, for `x > 0`. -/
def ilog2q (x : ℚ) : ℤ :=
  let c : ℤ := (natLog2 x.num.natAbs : ℤ) - (natLog2 x.den : ℤ)
  if x < pow2z c then c - 1 else c

/-- Round a non-negative rational to IEEE-754 binary32 precision: 24
significand bits, round to nearest, ties to even (normal range, which
covers every value arising in the fade tables; zero maps to zero). -/
def roundF32pos (x : ℚ) : ℚ :=
  (roundHalfEven (x * pow2z (23 - ilog2q x)) : ℚ) / pow2z (23 - ilog2q x)

/-- The rounding performed after each of the source's single-precision
`float` operations, modelled over exact rationals. -/
def roundF32 (x : ℚ) : ℚ :=
  if x < 0 then - roundF32pos (-x) else roundF32pos x

/-- `intermediateValue` under the source's IEEE-754 single-precision
semantics: `float delta = target - initial; return initial +
relativeTime * delta;`, with each operation's exact result rounded to
binary32. -/
def intermediateValueF32 (initial target relativeTime : ℚ) : ℚ :=
  roundF32 (initial + roundF32 (relativeTime * roundF32 (target - initial)))

/-- `intermediateState` under single-precision semantics (the
`constrain` comparisons are exact in `float`). -/
def intermediateStateF32 (initial target : AnalogLedsState) (relativeTime : ℚ) :
    AnalogLedsState :=
  let r := constrain relativeTime 0 1
  ⟨intermediateValueF32 initial.red target.red r,
   intermediateValueF32 initial.amber target.amber r,
   intermediateValueF32 initial.green target.green r,
   intermediateValueF32 initial.blue target.blue r,
   intermediateValueF32 initial.white target.white r⟩

/-- The `uint32_t` modulus. -/
def U32 : Nat := 2 ^ 32

/-- `PWM_ANIMATION_INTERVAL` from `FestiveTreeLights.ino`. -/
def PWM_ANIMATION_INTERVAL : Nat := 30

/-- The fade-related private fields of `StatefulController`:
`_pwmTransitionInProgress`, `_initialState`, `_targetState`,
`_totalTransitionTime`. -/
structure FadeState where
  pwmTransitionInProgress : Bool
  initialState : AnalogLedsState
  targetState : AnalogLedsState
  totalTransitionTime : Nat
deriving DecidableEq, Repr

/-- The mutable fields of a `StatefulController`. -/
structure SCState where
  currentStateIndex : Nat
  timeSpentOnCurrentState : Nat
  fade : FadeState
deriving DecidableEq, Repr

/-- A concrete `StatefulController` subclass: `_maxStateIndex` plus the
two virtual methods.  A subclass's `applyLedStatesForState` can only
write LEDs and/or call `startPwmTransition`, so its effect on the
controller is a function on the fade fields alone. -/
structure SCConfig where
  maxStateIndex : Nat
  getStateDuration : Nat → Nat
  applyLedStatesForState : Nat → FadeState → FadeState

/-- `StatefulController::startPwmTransition`: unconditionally installs a
new fade (the LED write of the initial snapshot is external output). -/
def startPwmTransition (transitionTime : Nat) (initial target : AnalogLedsState)
    (_fs : FadeState) : FadeState :=
  ⟨true, initial, target, transitionTime⟩

/-- `StatefulController::animatePwmTransition`: returns the updated fade
fields together with the snapshot pushed to the output sink.  The only
division in the engine, `(float)timeSpentOnCurrentState /
_totalTransitionTime`, sits in the branch where
`timeSpentOnCurrentState < _totalTransitionTime`. -/
def animatePwmTransition (fs : FadeState) (timeSpentOnCurrentState : Nat) :
    FadeState × AnalogLedsState :=
  if fs.totalTransitionTime ≤ timeSpentOnCurrentState then
    ({ fs with pwmTransitionInProgress := false }, fs.targetState)
  else
    (fs, intermediateState fs.initialState fs.targetState
      ((timeSpentOnCurrentState : ℚ) / (fs.totalTransitionTime : ℚ)))

/-- The `while` loop of `StatefulController::doControl`, with fuel.
While `timeSpent ≥ duration(i)` and `i < n`: subtract the duration and
increment the index. -/
def advanceLoopAux (dur : Nat → Nat) (n : Nat) : Nat → Nat → Nat → Nat × Nat
  | 0, i, t => (i, t)
  | fuel + 1, i, t =>
    if dur i ≤ t ∧ i < n then advanceLoopAux dur n fuel (i + 1) (t - dur i)
    else (i, t)

/-- The `while` loop of `StatefulController::doControl` run with fuel
`n - i`, the source's own termination measure (each iteration strictly
increments the index, which is bounded by `n`). -/
def advanceLoop (dur : Nat → Nat) (n i t : Nat) : Nat × Nat :=
  advanceLoopAux dur n (n - i) i t

namespace StatefulController

/-- The tail of `StatefulController::doControl` after the `while` loop
has produced the pair `p = (_currentStateIndex, _timeSpentOnCurrentState)`:
the early-out when all states have passed, the activation callback when
the index changed (`lastObservedStateIndex != _currentStateIndex`), and
the fade/no-fade result.  The third component lists the indices whose
activation callback `applyLedStatesForState` was invoked. -/
def afterLoop (cfg : SCConfig) (s : SCState) (p : Nat × Nat) :
    WorkState × SCState × List Nat :=
  if cfg.maxStateIndex ≤ p.1 then
    (finishedWorkState p.2, ⟨p.1, p.2, s.fade⟩, [])
  else if s.currentStateIndex ≠ p.1 then
    if (cfg.applyLedStatesForState p.1 s.fade).pwmTransitionInProgress then
      (unfinishedWorkState PWM_ANIMATION_INTERVAL,
        ⟨p.1, p.2,
          (animatePwmTransition (cfg.applyLedStatesForState p.1 s.fade) p.2).1⟩,
        [p.1])
    else
      (unfinishedWorkState (cfg.getStateDuration p.1 - p.2),
        ⟨p.1, p.2, cfg.applyLedStatesForState p.1 s.fade⟩, [p.1])
  else
    if s.fade.pwmTransitionInProgress then
      (unfinishedWorkState PWM_ANIMATION_INTERVAL,
        ⟨p.1, p.2, (animatePwmTransition s.fade p.2).1⟩, [])
    else
      (unfinishedWorkState (cfg.getStateDuration p.1 - p.2), ⟨p.1, p.2, s.fade⟩, [])

/-- `StatefulController::doControl`.  Returns the `WorkState`, the
updated controller state, and the list of state indices whose
`applyLedStatesForState` activation callback was invoked during this
call (in the source: at most the one final index, and only when the
index changed). -/
def doControl (cfg : SCConfig) (s : SCState) (timeSinceLastCall : Nat) :
    WorkState × SCState × List Nat :=
  if cfg.maxStateIndex ≤ s.currentStateIndex then
    (finishedWorkState timeSinceLastCall, s, [])
  else
    afterLoop cfg s
      (advanceLoop cfg.getStateDuration cfg.maxStateIndex s.currentStateIndex
        ((s.timeSpentOnCurrentState + timeSinceLastCall) % U32))

/-- `StatefulController::reset`: index and accumulated time to zero,
then invoke the activation callback for state 0 (which may install a
fade; `reset` itself never touches `_pwmTransitionInProgress`). -/
def reset (cfg : SCConfig) (s : SCState) : SCState × List Nat :=
  (⟨0, 0, cfg.applyLedStatesForState 0 s.fade⟩, [0])

/-- Iterate `doControl` over a list of elapsed times, collecting the
returned `WorkState`s. -/
def run (cfg : SCConfig) (s : SCState) : List Nat → List WorkState × SCState
  | [] => ([], s)
  | e :: es =>
    let r := doControl cfg s e
    let q := run cfg r.2.1 es
    (r.1 :: q.1, q.2)

end StatefulController

/-- A `LoopingController` wraps a `StatefulController` (as in every
wiring in the source) with `_maxLoopCount`. -/
structure LCConfig where
  scfg : SCConfig
  maxLoopCount : Nat

/-- The mutable fields of a `LoopingController`: `_currentLoopCount`
and the owned child controller's state. -/
structure LCState where
  currentLoopCount : Nat
  child : SCState
deriving DecidableEq, Repr

namespace LoopingController

/-- `LoopingController::doControl` with fuel for the tail-recursive
re-entry `return doControl(remainingTime)`.  The fuel-zero fallthrough
inside the last branch is unreachable when the fuel is at least
`maxLoopCount - count` (each re-entry strictly increments the loop
counter, which is bounded by `maxLoopCount`). -/
def doControlAux (cfg : LCConfig) :
    Nat → Nat → SCState → Nat → WorkState × LCState × List Nat
  | 0, count, child, e =>
    if cfg.maxLoopCount ≤ count then (finishedWorkState e, ⟨count, child⟩, [])
    else
      let r := StatefulController.doControl cfg.scfg child e
      if r.1.finished = false then (r.1, ⟨count, r.2.1⟩, r.2.2)
      else (r.1, ⟨count + 1, r.2.1⟩, r.2.2)
  | fuel + 1, count, child, e =>
    if cfg.maxLoopCount ≤ count then (finishedWorkState e, ⟨count, child⟩, [])
    else
      let r := StatefulController.doControl cfg.scfg child e
      if r.1.finished = false then (r.1, ⟨count, r.2.1⟩, r.2.2)
      else if cfg.maxLoopCount ≤ count + 1 then (r.1, ⟨count + 1, r.2.1⟩, r.2.2)
      else
        let rchild := StatefulController.reset cfg.scfg r.2.1
        let q := doControlAux cfg fuel (count + 1) rchild.1 r.1.remainingTime
        (q.1, q.2.1, r.2.2 ++ rchild.2 ++ q.2.2)

/-- `LoopingController::doControl`, run with fuel
`maxLoopCount - currentLoopCount`, the source's termination measure. -/
def doControl (cfg : LCConfig) (s : LCState) (e : Nat) :
    WorkState × LCState × List Nat :=
  doControlAux cfg (cfg.maxLoopCount - s.currentLoopCount) s.currentLoopCount s.child e

/-- `LoopingController::reset`: reset the child, zero the counter. -/
def reset (cfg : LCConfig) (s : LCState) : LCState × List Nat :=
  let r := StatefulController.reset cfg.scfg s.child
  (⟨0, r.1⟩, r.2)

/-- Iterate `doControl` over a list of elapsed times. -/
def run (cfg : LCConfig) (s : LCState) : List Nat → List WorkState × LCState
  | [] => ([], s)
  | e :: es =>
    let r := doControl cfg s e
    let q := run cfg r.2.1 es
    (r.1 :: q.1, q.2)

end LoopingController

/-- Sum of the durations of states `0, …, k-1`. -/
def durSum (dur : Nat → Nat) : Nat → Nat
  | 0 => 0
  | k + 1 => durSum dur k + dur k

/-- Total time a `StatefulController` state accounts for: durations of
all fully completed states plus the accumulated time in the current
state. -/
def consumed (cfg : SCConfig) (s : SCState) : Nat :=
  durSum cfg.getStateDuration s.currentStateIndex + s.timeSpentOnCurrentState

/-- The `(finished, remainingTime)` projection of a `WorkState`: the
done/not-done flag and the remainder, ignoring the sleep suggestion. -/
def doneRemainder (r : WorkState) : Bool × Nat :=
  (r.finished, r.remainingTime)

/-- Fade fields of a freshly constructed `StatefulController`: the
constructor sets `_pwmTransitionInProgress = false`; the snapshot and
duration fields are indeterminate in C++ and never read while the flag
is down, so the model fixes them at all-off and zero. -/
def idleFade : FadeState := ⟨false, allLedsOff, allLedsOff, 0⟩

/-- A freshly constructed `StatefulController`'s state. -/
def initialSCState : SCState := ⟨0, 0, idleFade⟩

/-- A freshly constructed `LoopingController`'s state. -/
def initialLCState : LCState := ⟨0, initialSCState⟩

/-- A purely digital machine with `n` equal-duration states; the shape
of `TwoLedCombinationsController`-style subclasses, whose activation
callbacks only call `setDigitalLedStates` and never touch the fade
fields.  Used for concrete instantiations. -/
def uniformDigitalCfg (n d : Nat) : SCConfig :=
  ⟨n, fun _ => d, fun _ fs => fs⟩

/-- `TwoLedCombinationsController(timePerState)`: 10 digital states of
equal duration. -/
def twoLedCombinationsCfg (timePerState : Nat) : SCConfig :=
  uniformDigitalCfg 10 timePerState

/-- `FlowingThreeLedsController(timePerState)`: 5 digital states of
equal duration. -/
def flowingThreeLedsCfg (timePerState : Nat) : SCConfig :=
  uniformDigitalCfg 5 timePerState

/-- `TwoLedCombinationsFadeOutThenInController::getLedsStateForState`. -/
def fadeOutThenInLedsState (stateIndex : Nat) : AnalogLedsState :=
  match stateIndex / 2 with
  | 0 => analogLedsState 0 0 1 1 1
  | 1 => analogLedsState 1 1 0 0 1
  | 2 => analogLedsState 0 1 1 1 0
  | 3 => analogLedsState 1 0 0 1 1
  | 4 => analogLedsState 1 1 1 0 0
  | 5 => analogLedsState 0 1 0 1 1
  | 6 => analogLedsState 1 0 1 0 1
  | 7 => analogLedsState 1 1 0 1 0
  | 8 => analogLedsState 0 1 1 0 1
  | 9 => analogLedsState 1 0 1 1 0
  | _ => allLedsOff

/-- `TwoLedCombinationsFadeOutThenInController`: 20 states; even states
fade out from all-on (`startFadeOutFromAllLeds`), odd states fade back
in to all-on (`startFadeInToAllLeds`). -/
def twoLedCombinationsFadeOutThenInCfg (fadeOutDuration sustainAfterFadeOutDuration
    fadeInDuration sustainAfterFadeInDuration : Nat) : SCConfig :=
  ⟨20,
   fun i =>
     if i % 2 = 0 then fadeOutDuration + sustainAfterFadeOutDuration
     else fadeInDuration + sustainAfterFadeInDuration,
   fun i fs =>
     if i % 2 = 0 then
       startPwmTransition fadeOutDuration allLedsOn (fadeOutThenInLedsState i) fs
     else
       startPwmTransition fadeInDuration (fadeOutThenInLedsState i) allLedsOn fs⟩

/-- `SequentialFadeController::applyLedStatesForState` (cases 5 and 11
are plain digital writes, which leave the fade fields untouched). -/
def sequentialFadeApply (fadeInDuration fadeOutDuration : Nat) (stateIndex : Nat)
    (fs : FadeState) : FadeState :=
  match stateIndex with
  | 0 => startPwmTransition fadeInDuration allLedsOff (analogLedsState 1 0 0 0 0) fs
  | 1 => startPwmTransition fadeInDuration (analogLedsState 1 0 0 0 0)
      (analogLedsState 1 1 0 0 0) fs
  | 2 => startPwmTransition fadeInDuration (analogLedsState 1 1 0 0 0)
      (analogLedsState 1 1 1 0 0) fs
  | 3 => startPwmTransition fadeInDuration (analogLedsState 1 1 1 0 0)
      (analogLedsState 1 1 1 1 0) fs
  | 4 => startPwmTransition fadeInDuration (analogLedsState 1 1 1 1 0)
      (analogLedsState 1 1 1 1 1) fs
  | 5 => fs
  | 6 => startPwmTransition fadeOutDuration (analogLedsState 1 1 1 1 1)
      (analogLedsState 0 1 1 1 1) fs
  | 7 => startPwmTransition fadeOutDuration (analogLedsState 0 1 1 1 1)
      (analogLedsState 0 0 1 1 1) fs
  | 8 => startPwmTransition fadeOutDuration (analogLedsState 0 0 1 1 1)
      (analogLedsState 0 0 0 1 1) fs
  | 9 => startPwmTransition fadeOutDuration (analogLedsState 0 0 0 1 1)
      (analogLedsState 0 0 0 0 1) fs
  | 10 => startPwmTransition fadeOutDuration (analogLedsState 0 0 0 0 1) allLedsOff fs
  | 11 => fs
  | _ => fs

/-- `SequentialFadeController`: 12 states with the duration table of
`getStateDuration`. -/
def sequentialFadeCfg (fadeInDuration sustainAfterFadeInDuration
    delayAfterFadingInAllLeds fadeOutDuration sustainAfterFadeOutDuration
    delayAfterFadingOutAllLeds : Nat) : SCConfig :=
  ⟨12,
   fun i =>
     if i = 5 then delayAfterFadingInAllLeds
     else if i = 11 then delayAfterFadingOutAllLeds
     else if i < 6 then fadeInDuration + sustainAfterFadeInDuration
     else fadeOutDuration + sustainAfterFadeOutDuration,
   sequentialFadeApply fadeInDuration fadeOutDuration⟩

/-- `OneByOneFadeController::getLedsStateForSingleLedFadeState`. -/
def oneByOneLedsState (stateIndex : Nat) : AnalogLedsState :=
  if stateIndex < 10 then
    match stateIndex / 2 with
    | 0 => analogLedsState 1 0 0 0 0
    | 1 => analogLedsState 0 1 0 0 0
    | 2 => analogLedsState 0 0 1 0 0
    | 3 => analogLedsState 0 0 0 1 0
    | 4 => analogLedsState 0 0 0 0 1
    | _ => allLedsOff
  else allLedsOff

/-- `OneByOneFadeController`: 12 states; even states below 10 fade a
single LED in from all-off, odd ones fade it back out; states 10 and 11
fade all LEDs in and out. -/
def oneByOneFadeCfg (singleLedFadeInDuration singleLedSustainAfterFadeInDuration
    singleLedFadeOutDuration singleLedSustainAfterFadeOutDuration
    allLedsFadeInDuration allLedsSustainAfterFadeInDuration
    allLedsFadeOutDuration allLedsSustainAfterFadeOutDuration : Nat) : SCConfig :=
  ⟨12,
   fun i =>
     if i = 10 then allLedsFadeInDuration + allLedsSustainAfterFadeInDuration
     else if i = 11 then allLedsFadeOutDuration + allLedsSustainAfterFadeOutDuration
     else if i % 2 = 0 then singleLedFadeInDuration + singleLedSustainAfterFadeInDuration
     else singleLedFadeOutDuration + singleLedSustainAfterFadeOutDuration,
   fun i fs =>
     if i < 10 then
       if i % 2 = 0 then
         startPwmTransition singleLedFadeInDuration allLedsOff (oneByOneLedsState i) fs
       else
         startPwmTransition singleLedFadeOutDuration (oneByOneLedsState i) allLedsOff fs
     else if i = 10 then
       startPwmTransition allLedsFadeInDuration allLedsOff allLedsOn fs
     else if i = 11 then
       startPwmTransition allLedsFadeOutDuration allLedsOn allLedsOff fs
     else fs⟩

/-- The wired instance `slowTwoLedCombinationsController(1000)`. -/
def slowTwoLedCombinationsController : SCConfig := twoLedCombinationsCfg 1000

/-- The wired instance `slowTwoLedCombinationsControllerLoop` (2 loops). -/
def slowTwoLedCombinationsControllerLoop : LCConfig :=
  ⟨slowTwoLedCombinationsController, 2⟩

/-- The wired instance `fastTwoLedCombinationsController(500)`. -/
def fastTwoLedCombinationsController : SCConfig := twoLedCombinationsCfg 500

/-- The wired instance `fastTwoLedCombinationsControllerLoop` (4 loops). -/
def fastTwoLedCombinationsControllerLoop : LCConfig :=
  ⟨fastTwoLedCombinationsController, 4⟩

/-- The wired instance `flowingThreeLedsController(100)`. -/
def flowingThreeLedsController : SCConfig := flowingThreeLedsCfg 100

/-- The wired instance `flowingThreeLedsControllerLoop` (20 loops). -/
def flowingThreeLedsControllerLoop : LCConfig := ⟨flowingThreeLedsController, 20⟩

/-- The wired instance
`twoLedCombinationsFadeOutThenInController(150, 100, 150, 100)`. -/
def twoLedCombinationsFadeOutThenInController : SCConfig :=
  twoLedCombinationsFadeOutThenInCfg 150 100 150 100

/-- The wired instance `twoLedCombinationsFadeOutThenInControllerLoop`
(4 loops). -/
def twoLedCombinationsFadeOutThenInControllerLoop : LCConfig :=
  ⟨twoLedCombinationsFadeOutThenInController, 4⟩

/-- The wired instance
`sequentialFadeController(150, 50, 1000, 300, 100, 1000)`. -/
def sequentialFadeController : SCConfig := sequentialFadeCfg 150 50 1000 300 100 1000

/-- The wired instance `sequentialFadeControllerLoop` (3 loops). -/
def sequentialFadeControllerLoop : LCConfig := ⟨sequentialFadeController, 3⟩

/-- The wired instance
`oneByOneFadeController(1000, 2000, 1000, 0, 3000, 5000, 3000, 1000)`. -/
def oneByOneFadeController : SCConfig := oneByOneFadeCfg 1000 2000 1000 0 3000 5000 3000 1000

/-- A two-state machine with durations `[2^32 - 1, 5]`, used to exhibit
`uint32_t` wraparound of `_timeSpentOnCurrentState`. -/
def overflowDemoCfg : SCConfig :=
  ⟨2, fun i => if i = 0 then 4294967295 else 5, fun _ fs => fs⟩

/-- Modelled from the spec: the comparison object of the
Repeater-equivalence property, which exists nowhere in the source — a
single flat machine with `M * N` states in which states
`[k*N, (k+1)*N)` replicate the wrapped machine's `N` states. -/
def flatCfg (cfg : LCConfig) : SCConfig :=
  ⟨cfg.maxLoopCount * cfg.scfg.maxStateIndex,
   fun i => cfg.scfg.getStateDuration (i % cfg.scfg.maxStateIndex),
   fun i fs => cfg.scfg.applyLedStatesForState (i % cfg.scfg.maxStateIndex) fs⟩

/-- Simulation relation between a `LoopingController` state and the
flat `M * N`-state machine of `flatCfg`: either both are exhausted, or
the flat index decomposes as `loopCount * N + childIndex` with equal
accumulated times. -/
def LCFlatRel (cfg : LCConfig) (l : LCState) (f : SCState) : Prop :=
  (cfg.maxLoopCount ≤ l.currentLoopCount ∧
    (flatCfg cfg).maxStateIndex ≤ f.currentStateIndex) ∨
  (l.currentLoopCount < cfg.maxLoopCount ∧
    l.child.currentStateIndex < cfg.scfg.maxStateIndex ∧
    f.currentStateIndex =
      l.currentLoopCount * cfg.scfg.maxStateIndex + l.child.currentStateIndex ∧
    f.timeSpentOnCurrentState = l.child.timeSpentOnCurrentState)

/-- The state of the six wired controllers plus the
`SwitchingController`'s cursor `_currentControllerIndex`. -/
structure MainState where
  currentControllerIndex : Nat
  slowLoop : LCState
  fastLoop : LCState
  seqLoop : LCState
  flowLoop : LCState
  fadeOutInLoop : LCState
  oneByOne : SCState
deriving DecidableEq, Repr

namespace SwitchingController

/-- `SwitchingController::getControllerCount`. -/
def getControllerCount : Nat := 6

/-- One delegation `getControllerByIndex(index)->doControl(e)`, with
the updated slot written back.  Indices outside `0..5` answer NULL in
the source and are unreachable (the cursor is only ever set to values
below 6); the model leaves the state unchanged there. -/
def dispatchDoControl (s : MainState) (index e : Nat) : WorkState × MainState :=
  match index with
  | 0 =>
    let r := LoopingController.doControl slowTwoLedCombinationsControllerLoop
      s.slowLoop e
    (r.1, { s with slowLoop := r.2.1 })
  | 1 =>
    let r := LoopingController.doControl fastTwoLedCombinationsControllerLoop
      s.fastLoop e
    (r.1, { s with fastLoop := r.2.1 })
  | 2 =>
    let r := LoopingController.doControl sequentialFadeControllerLoop s.seqLoop e
    (r.1, { s with seqLoop := r.2.1 })
  | 3 =>
    let r := LoopingController.doControl flowingThreeLedsControllerLoop s.flowLoop e
    (r.1, { s with flowLoop := r.2.1 })
  | 4 =>
    let r := LoopingController.doControl twoLedCombinationsFadeOutThenInControllerLoop
      s.fadeOutInLoop e
    (r.1, { s with fadeOutInLoop := r.2.1 })
  | 5 =>
    let r := StatefulController.doControl oneByOneFadeController s.oneByOne e
    (r.1, { s with oneByOne := r.2.1 })
  | _ => (unfinishedWorkState 0, s)

/-- `SwitchingController::switchToController`: store the cursor and
reset the newly selected controller (no reset when the index answers
NULL in the source). -/
def switchToController (s : MainState) (controllerIndex : Nat) : MainState :=
  match controllerIndex with
  | 0 =>
    { s with
      currentControllerIndex := 0
      slowLoop := (LoopingController.reset slowTwoLedCombinationsControllerLoop
        s.slowLoop).1 }
  | 1 =>
    { s with
      currentControllerIndex := 1
      fastLoop := (LoopingController.reset fastTwoLedCombinationsControllerLoop
        s.fastLoop).1 }
  | 2 =>
    { s with
      currentControllerIndex := 2
      seqLoop := (LoopingController.reset sequentialFadeControllerLoop s.seqLoop).1 }
  | 3 =>
    { s with
      currentControllerIndex := 3
      flowLoop := (LoopingController.reset flowingThreeLedsControllerLoop
        s.flowLoop).1 }
  | 4 =>
    { s with
      currentControllerIndex := 4
      fadeOutInLoop := (LoopingController.reset
        twoLedCombinationsFadeOutThenInControllerLoop s.fadeOutInLoop).1 }
  | 5 =>
    { s with
      currentControllerIndex := 5
      oneByOne := (StatefulController.reset oneByOneFadeController s.oneByOne).1 }
  | i => { s with currentControllerIndex := i }

/-- The `do { … } while (thereIsMoreTimeToSpend)` loop of
`SwitchingController::doControl`, with fuel: delegate the remaining
budget to the current controller; when it reports finished, advance the
cursor (wrapping to 0 past the last index), reset the newly selected
controller, and loop again on the finished controller's remainder —
all within the same external call.  Theorems below show fuel
`remainingTime + 1` always suffices from reachable states. -/
def doControlLoop : Nat → MainState → Nat → Option (Nat × MainState)
  | 0, _, _ => none
  | fuel + 1, s, remainingTime =>
    let r := dispatchDoControl s s.currentControllerIndex remainingTime
    if r.1.finished = true then
      doControlLoop fuel
        (switchToController r.2
          (if s.currentControllerIndex < getControllerCount - 1
           then s.currentControllerIndex + 1 else 0))
        r.1.remainingTime
    else
      some (r.1.suggestedSleepTime, r.2)

/-- `SwitchingController::doControl`: run the loop and return
`unfinishedWorkState(suggestedSleepTime)` — the method's only return
statement, so the sequencer never reports done.  The `none` fallback is
unreachable from reachable states (proved below). -/
def doControl (s : MainState) (timeSinceLastCall : Nat) : WorkState × MainState :=
  match doControlLoop (timeSinceLastCall + 1) s timeSinceLastCall with
  | some q => (unfinishedWorkState q.1, q.2)
  | none => (unfinishedWorkState 0, s)

/-- `SwitchingController::reset`. -/
def reset (s : MainState) : MainState := switchToController s 0

/-- Iterate `doControl` over a list of elapsed times. -/
def run (s : MainState) : List Nat → List WorkState × MainState
  | [] => ([], s)
  | e :: es =>
    let r := doControl s e
    let q := run r.2 es
    (r.1 :: q.1, q.2)

end SwitchingController

/-- The module-level controller instances as constructed at program
start. -/
def mainInitialState : MainState :=
  ⟨0, initialLCState, initialLCState, initialLCState, initialLCState,
    initialLCState, initialSCState⟩

/-- A live `StatefulController`: the current state exists and the
accumulated time sits strictly inside its duration (and inside
`uint32_t`). -/
def SCalive (cfg : SCConfig) (s : SCState) : Prop :=
  s.currentStateIndex < cfg.maxStateIndex ∧
  s.timeSpentOnCurrentState < cfg.getStateDuration s.currentStateIndex ∧
  s.timeSpentOnCurrentState < U32

/-- A live `LoopingController`: iterations remain and the child is
live. -/
def LCalive (cfg : LCConfig) (s : LCState) : Prop :=
  s.currentLoopCount < cfg.maxLoopCount ∧ SCalive cfg.scfg s.child

/-- The `SwitchingController` invariant: the cursor is in range and the
currently selected controller is live. -/
def MainInv (s : MainState) : Prop :=
  (s.currentControllerIndex = 0 ∧
    LCalive slowTwoLedCombinationsControllerLoop s.slowLoop) ∨
  (s.currentControllerIndex = 1 ∧
    LCalive fastTwoLedCombinationsControllerLoop s.fastLoop) ∨
  (s.currentControllerIndex = 2 ∧
    LCalive sequentialFadeControllerLoop s.seqLoop) ∨
  (s.currentControllerIndex = 3 ∧
    LCalive flowingThreeLedsControllerLoop s.flowLoop) ∨
  (s.currentControllerIndex = 4 ∧
    LCalive twoLedCombinationsFadeOutThenInControllerLoop s.fadeOutInLoop) ∨
  (s.currentControllerIndex = 5 ∧ SCalive oneByOneFadeController s.oneByOne)

theorem durSum_mono (dur : Nat → Nat) {i j : Nat} (h : i ≤ j) :
    durSum dur i ≤ durSum dur j := by
  induction h with
  | refl => exact le_refl _
  | step _ ih => exact le_trans ih (Nat.le_add_right _ _)

/-- One-step unfolding of the `while` loop: running it with fuel `n - i`
already reaches the loop's exit. -/
theorem advanceLoop_eq (dur : Nat → Nat) (n i t : Nat) :
    advanceLoop dur n i t =
      if dur i ≤ t ∧ i < n then advanceLoop dur n (i + 1) (t - dur i)
      else (i, t) := by
  unfold advanceLoop
  rcases h : n - i with _ | k
  · have hni : ¬ i < n := by omega
    simp [advanceLoopAux, hni]
  · have hk : n - (i + 1) = k := by omega
    simp [advanceLoopAux, hk]

/-- Everything the surrounding code needs to know about the `while`
loop: time conservation, index bounds, the exit condition, and that any
index movement consumed at least the first state's duration. -/
theorem advanceLoop_spec (dur : Nat → Nat) (n : Nat) :
    ∀ i t,
      durSum dur i + t =
        durSum dur (advanceLoop dur n i t).1 + (advanceLoop dur n i t).2 ∧
      i ≤ (advanceLoop dur n i t).1 ∧
      (i ≤ n → (advanceLoop dur n i t).1 ≤ n) ∧
      ((advanceLoop dur n i t).1 < n →
        (advanceLoop dur n i t).2 < dur (advanceLoop dur n i t).1) ∧
      (i < (advanceLoop dur n i t).1 → dur i ≤ t) ∧
      (advanceLoop dur n i t).2 ≤ t := by
  have main : ∀ k i t, n - i ≤ k →
      durSum dur i + t =
        durSum dur (advanceLoop dur n i t).1 + (advanceLoop dur n i t).2 ∧
      i ≤ (advanceLoop dur n i t).1 ∧
      (i ≤ n → (advanceLoop dur n i t).1 ≤ n) ∧
      ((advanceLoop dur n i t).1 < n →
        (advanceLoop dur n i t).2 < dur (advanceLoop dur n i t).1) ∧
      (i < (advanceLoop dur n i t).1 → dur i ≤ t) ∧
      (advanceLoop dur n i t).2 ≤ t := by
    intro k
    induction k with
    | zero =>
      intro i t hk
      have hni : ¬ i < n := by omega
      rw [advanceLoop_eq, if_neg (fun h => hni h.2)]
      exact ⟨rfl, le_refl _, fun h => h, fun h => absurd h hni,
        fun h => absurd h (lt_irrefl i), le_refl _⟩
    | succ k ih =>
      intro i t hk
      rw [advanceLoop_eq]
      by_cases hc : dur i ≤ t ∧ i < n
      · rw [if_pos hc]
        obtain ⟨c1, c2, c3, c4, c5, c6⟩ := ih (i + 1) (t - dur i) (by omega)
        have hstep : durSum dur (i + 1) = durSum dur i + dur i := rfl
        exact ⟨by omega, by omega, fun _ => c3 (by omega), c4, fun _ => hc.1, by omega⟩
      · rw [if_neg hc]
        refine ⟨rfl, le_refl _, fun h => h, ?_,
          fun h => absurd h (lt_irrefl i), le_refl _⟩
        intro hlt
        have hnot : ¬ dur i ≤ t := fun hd => hc ⟨hd, by exact hlt⟩
        show t < dur i
        omega
  exact fun i t => main (n - i) i t (le_refl _)

/-- Branch-independent facts about the tail of
`StatefulController::doControl`: the stored index/time are the loop's
output, the call finishes exactly when the index has exhausted the
states, a finished call's remainder is the leftover accumulated time,
and the activation callback fires exactly for the final index when the
call did not finish and the index changed. -/
theorem StatefulController.afterLoop_spec (cfg : SCConfig) (s : SCState) (p : Nat × Nat) :
    (StatefulController.afterLoop cfg s p).2.1.currentStateIndex = p.1 ∧
    (StatefulController.afterLoop cfg s p).2.1.timeSpentOnCurrentState = p.2 ∧
    ((StatefulController.afterLoop cfg s p).1.finished = true ↔ cfg.maxStateIndex ≤ p.1) ∧
    (cfg.maxStateIndex ≤ p.1 →
      (StatefulController.afterLoop cfg s p).1 = finishedWorkState p.2) ∧
    (StatefulController.afterLoop cfg s p).2.2 =
      (if (StatefulController.afterLoop cfg s p).1.finished = false ∧
          s.currentStateIndex ≠ p.1 then [p.1] else []) := by
  unfold StatefulController.afterLoop
  by_cases h1 : cfg.maxStateIndex ≤ p.1
  · rw [if_pos h1]
    simp [finishedWorkState, h1]
  · rw [if_neg h1]
    by_cases h2 : s.currentStateIndex ≠ p.1
    · rw [if_pos h2]
      split <;> simp [finishedWorkState, unfinishedWorkState, h1, h2]
    · rw [if_neg h2]
      split <;> simp [finishedWorkState, unfinishedWorkState, h1, h2]

/-- One `doControl` call on a live machine when the `uint32_t`
accumulation does not wrap: time is conserved (`consumed` increases by
exactly the elapsed time), the index never passes `maxStateIndex`, the
call finishes exactly when the index reaches it, a live result leaves
the accumulated time strictly below the current duration, and a
finished result carries the leftover time as its remainder. -/
theorem StatefulController.doControl_conserve (cfg : SCConfig) (s : SCState) (e : Nat)
    (hidx : s.currentStateIndex < cfg.maxStateIndex)
    (hov : s.timeSpentOnCurrentState + e < U32) :
    consumed cfg (StatefulController.doControl cfg s e).2.1 = consumed cfg s + e ∧
    (StatefulController.doControl cfg s e).2.1.currentStateIndex ≤ cfg.maxStateIndex ∧
    ((StatefulController.doControl cfg s e).1.finished = true ↔
      (StatefulController.doControl cfg s e).2.1.currentStateIndex = cfg.maxStateIndex) ∧
    ((StatefulController.doControl cfg s e).2.1.currentStateIndex < cfg.maxStateIndex →
      (StatefulController.doControl cfg s e).2.1.timeSpentOnCurrentState <
        cfg.getStateDuration
          (StatefulController.doControl cfg s e).2.1.currentStateIndex) ∧
    ((StatefulController.doControl cfg s e).1.finished = true →
      (StatefulController.doControl cfg s e).1 =
        finishedWorkState
          ((StatefulController.doControl cfg s e).2.1.timeSpentOnCurrentState)) := by
  have hmod : (s.timeSpentOnCurrentState + e) % U32 = s.timeSpentOnCurrentState + e :=
    Nat.mod_eq_of_lt hov
  unfold StatefulController.doControl
  rw [if_neg (by omega), hmod]
  obtain ⟨l1, l2, l3, l4, l5, l6⟩ := advanceLoop_spec cfg.getStateDuration cfg.maxStateIndex
    s.currentStateIndex (s.timeSpentOnCurrentState + e)
  obtain ⟨a1, a2, a3, a4, a5⟩ := StatefulController.afterLoop_spec cfg s
    (advanceLoop cfg.getStateDuration cfg.maxStateIndex s.currentStateIndex
      (s.timeSpentOnCurrentState + e))
  have hub := l3 (le_of_lt hidx)
  refine ⟨?_, ?_, ?_, ?_, ?_⟩
  · unfold consumed
    rw [a1, a2]
    omega
  · rw [a1]; exact hub
  · rw [a1]
    constructor
    · intro hf
      have := a3.mp hf
      omega
    · intro hf
      exact a3.mpr (by omega)
  · rw [a1, a2]
    exact l4
  · intro hf
    rw [a2]
    exact a4 (a3.mp hf)

/-- Iterating `doControl` while the total injected time stays strictly
below the total of all state durations (and below `2 ^ 32`): every call
stays unfinished and time is conserved exactly. -/
theorem StatefulController.run_conserve (cfg : SCConfig) :
    ∀ (es : List Nat) (s : SCState) (T : Nat),
      s.currentStateIndex < cfg.maxStateIndex →
      consumed cfg s = T →
      T + es.sum < durSum cfg.getStateDuration cfg.maxStateIndex →
      T + es.sum < U32 →
      (∀ r ∈ (StatefulController.run cfg s es).1, r.finished = false) ∧
      (StatefulController.run cfg s es).2.currentStateIndex < cfg.maxStateIndex ∧
      consumed cfg (StatefulController.run cfg s es).2 = T + es.sum := by
  intro es
  induction es with
  | nil =>
    intro s T h1 h2 h3 h4
    refine ⟨?_, ?_, ?_⟩
    · intro r hr
      simp [StatefulController.run] at hr
    · simpa [StatefulController.run] using h1
    · simp only [StatefulController.run, List.sum_nil]
      omega
  | cons e es ih =>
    intro s T h1 h2 h3 h4
    have hsum : (e :: es).sum = e + es.sum := List.sum_cons
    rw [hsum] at h3 h4
    have htle : s.timeSpentOnCurrentState ≤ T := by
      unfold consumed at h2
      omega
    have hov : s.timeSpentOnCurrentState + e < U32 := by omega
    obtain ⟨c1, c2, c3, c4, c5⟩ := StatefulController.doControl_conserve cfg s e h1 hov
    rw [h2] at c1
    have hidx1 :
        (StatefulController.doControl cfg s e).2.1.currentStateIndex < cfg.maxStateIndex := by
      rcases Nat.lt_or_ge (StatefulController.doControl cfg s e).2.1.currentStateIndex
        cfg.maxStateIndex with h | h
      · exact h
      · exfalso
        have heq : (StatefulController.doControl cfg s e).2.1.currentStateIndex =
            cfg.maxStateIndex := le_antisymm c2 h
        have hdle : durSum cfg.getStateDuration cfg.maxStateIndex ≤
            consumed cfg (StatefulController.doControl cfg s e).2.1 := by
          unfold consumed
          rw [heq]
          omega
        omega
    have hfin : (StatefulController.doControl cfg s e).1.finished = false := by
      cases hb : (StatefulController.doControl cfg s e).1.finished
      · rfl
      · exact absurd (c3.mp hb) (by omega)
    obtain ⟨r1, r2, r3⟩ := ih (StatefulController.doControl cfg s e).2.1 (T + e) hidx1 c1
      (by omega) (by omega)
    refine ⟨?_, ?_, ?_⟩
    · intro r hr
      simp only [StatefulController.run] at hr
      rcases List.mem_cons.mp hr with h | h
      · rw [h]
        exact hfin
      · exact r1 r h
    · simpa [StatefulController.run] using r2
    · simp only [StatefulController.run]
      rw [hsum]
      have := r3
      omega

/-- A `doControl` call that pushes the accounted time to (or past) the
total of all state durations finishes with exactly the excess as its
remainder (when the `uint32_t` accumulation does not wrap). -/
theorem StatefulController.doControl_finishes (cfg : SCConfig) (s : SCState) (e : Nat)
    (hidx : s.currentStateIndex < cfg.maxStateIndex)
    (hov : s.timeSpentOnCurrentState + e < U32)
    (hfin : durSum cfg.getStateDuration cfg.maxStateIndex ≤ consumed cfg s + e) :
    (StatefulController.doControl cfg s e).1 =
      finishedWorkState
        (consumed cfg s + e - durSum cfg.getStateDuration cfg.maxStateIndex) := by
  have hmod : (s.timeSpentOnCurrentState + e) % U32 = s.timeSpentOnCurrentState + e :=
    Nat.mod_eq_of_lt hov
  unfold StatefulController.doControl
  rw [if_neg (by omega), hmod]
  obtain ⟨l1, l2, l3, l4, l5, l6⟩ := advanceLoop_spec cfg.getStateDuration cfg.maxStateIndex
    s.currentStateIndex (s.timeSpentOnCurrentState + e)
  obtain ⟨a1, a2, a3, a4, a5⟩ := StatefulController.afterLoop_spec cfg s
    (advanceLoop cfg.getStateDuration cfg.maxStateIndex s.currentStateIndex
      (s.timeSpentOnCurrentState + e))
  have hub := l3 (le_of_lt hidx)
  unfold consumed at hfin
  set p := advanceLoop cfg.getStateDuration cfg.maxStateIndex s.currentStateIndex
    (s.timeSpentOnCurrentState + e) with hp
  have hdone : p.1 = cfg.maxStateIndex := by
    rcases Nat.lt_or_ge p.1 cfg.maxStateIndex with h | h
    · exfalso
      have hexit := l4 h
      have hmono : durSum cfg.getStateDuration (p.1 + 1) ≤
          durSum cfg.getStateDuration cfg.maxStateIndex := durSum_mono _ h
      have hstep : durSum cfg.getStateDuration (p.1 + 1) =
          durSum cfg.getStateDuration p.1 + cfg.getStateDuration p.1 := rfl
      omega
    · omega
  rw [a4 (by omega)]
  have : p.2 = durSum cfg.getStateDuration s.currentStateIndex +
      s.timeSpentOnCurrentState + e - durSum cfg.getStateDuration cfg.maxStateIndex := by
    rw [← hdone]
    omega
  rw [this]
  unfold consumed
  rfl

/-- Any fuel at least `n - i` yields the same result as the canonical
run of the `while` loop: the loop reaches its exit within `n - i`
iterations, because each iteration strictly increments the index, which
is bounded by `n` — even when durations are zero. -/
theorem advanceLoopAux_fuel (dur : Nat → Nat) (n : Nat) :
    ∀ fuel i t, n - i ≤ fuel →
      advanceLoopAux dur n fuel i t = advanceLoop dur n i t := by
  intro fuel
  induction fuel with
  | zero =>
    intro i t h
    have hni : ¬ i < n := by omega
    rw [advanceLoop_eq, if_neg (fun hh => hni hh.2)]
    rfl
  | succ k ih =>
    intro i t h
    rw [advanceLoop_eq]
    simp only [advanceLoopAux]
    by_cases hc : dur i ≤ t ∧ i < n
    · rw [if_pos hc, if_pos hc]
      exact ih (i + 1) (t - dur i) (by omega)
    · rw [if_neg hc, if_neg hc]

/-- Unfolding equation for `LoopingController::doControl`, mirroring
the source's branch structure with the recursive re-entry
`return doControl(remainingTime)` appearing as a genuine recursive
call. -/
theorem LoopingController.doControl_eq (cfg : LCConfig) (count : Nat) (child : SCState)
    (e : Nat) :
    LoopingController.doControl cfg ⟨count, child⟩ e =
      (if cfg.maxLoopCount ≤ count then (finishedWorkState e, ⟨count, child⟩, [])
       else
         let r := StatefulController.doControl cfg.scfg child e
         if r.1.finished = false then (r.1, ⟨count, r.2.1⟩, r.2.2)
         else if cfg.maxLoopCount ≤ count + 1 then (r.1, ⟨count + 1, r.2.1⟩, r.2.2)
         else
           let rchild := StatefulController.reset cfg.scfg r.2.1
           let q := LoopingController.doControl cfg ⟨count + 1, rchild.1⟩
             r.1.remainingTime
           (q.1, q.2.1, r.2.2 ++ rchild.2 ++ q.2.2)) := by
  by_cases h1 : cfg.maxLoopCount ≤ count
  · rw [if_pos h1]
    unfold LoopingController.doControl
    rw [show cfg.maxLoopCount - count = 0 from by omega]
    simp only [LoopingController.doControlAux]
    rw [if_pos h1]
  · rw [if_neg h1]
    unfold LoopingController.doControl
    have hM : cfg.maxLoopCount - count = (cfg.maxLoopCount - (count + 1)) + 1 := by
      omega
    rw [hM]
    simp only [LoopingController.doControlAux]
    rw [if_neg h1]

/-- Any fuel at least `maxLoopCount - count` yields the same result as
`LoopingController::doControl`: the recursive re-entry chain settles
within `maxLoopCount - count` steps, because each re-entry strictly
increments the loop counter, which is bounded by `maxLoopCount` — even
when the wrapped machine finishes instantly. -/
theorem LoopingController.doControlAux_fuel (cfg : LCConfig) :
    ∀ fuel count child e, cfg.maxLoopCount - count ≤ fuel →
      LoopingController.doControlAux cfg fuel count child e =
        LoopingController.doControl cfg ⟨count, child⟩ e := by
  intro fuel
  induction fuel with
  | zero =>
    intro count child e h
    have h1 : cfg.maxLoopCount ≤ count := by omega
    rw [LoopingController.doControl_eq, if_pos h1]
    simp only [LoopingController.doControlAux]
    rw [if_pos h1]
  | succ k ih =>
    intro count child e h
    rw [LoopingController.doControl_eq]
    simp only [LoopingController.doControlAux]
    by_cases h1 : cfg.maxLoopCount ≤ count
    · rw [if_pos h1, if_pos h1]
    · rw [if_neg h1, if_neg h1]
      by_cases h2 : (StatefulController.doControl cfg.scfg child e).1.finished = false
      · rw [if_pos h2, if_pos h2]
      · rw [if_neg h2, if_neg h2]
        by_cases h3 : cfg.maxLoopCount ≤ count + 1
        · rw [if_pos h3, if_pos h3]
        · rw [if_neg h3, if_neg h3]
          rw [ih (count + 1)
            (StatefulController.reset cfg.scfg
              (StatefulController.doControl cfg.scfg child e).2.1).1
            (StatefulController.doControl cfg.scfg child e).1.remainingTime (by omega)]

theorem StatefulController.afterLoop_remainder (cfg : SCConfig) (s : SCState)
    (p : Nat × Nat) :
    (StatefulController.afterLoop cfg s p).1.remainingTime =
      (if (StatefulController.afterLoop cfg s p).1.finished = true then p.2 else 0) := by
  unfold StatefulController.afterLoop
  by_cases h1 : cfg.maxStateIndex ≤ p.1
  · rw [if_pos h1]
    simp [finishedWorkState]
  · rw [if_neg h1]
    by_cases h2 : s.currentStateIndex ≠ p.1
    · rw [if_pos h2]
      split <;> simp [finishedWorkState, unfinishedWorkState]
    · rw [if_neg h2]
      split <;> simp [finishedWorkState, unfinishedWorkState]

theorem StatefulController.doControl_doneEntry (cfg : SCConfig) (s : SCState) (e : Nat)
    (h : cfg.maxStateIndex ≤ s.currentStateIndex) :
    StatefulController.doControl cfg s e = (finishedWorkState e, s, []) := by
  unfold StatefulController.doControl
  rw [if_pos h]

theorem StatefulController.doControl_live (cfg : SCConfig) (s : SCState) (e : Nat)
    (h : s.currentStateIndex < cfg.maxStateIndex) :
    StatefulController.doControl cfg s e =
      StatefulController.afterLoop cfg s
        (advanceLoop cfg.getStateDuration cfg.maxStateIndex s.currentStateIndex
          ((s.timeSpentOnCurrentState + e) % U32)) := by
  unfold StatefulController.doControl
  rw [if_neg (by omega)]

theorem StatefulController.doControl_features (cfg : SCConfig) (s : SCState) (e : Nat)
    (h : s.currentStateIndex < cfg.maxStateIndex) :
    ((StatefulController.doControl cfg s e).1.finished = true ↔
      cfg.maxStateIndex ≤
        (advanceLoop cfg.getStateDuration cfg.maxStateIndex s.currentStateIndex
          ((s.timeSpentOnCurrentState + e) % U32)).1) ∧
    (StatefulController.doControl cfg s e).1.remainingTime =
      (if (StatefulController.doControl cfg s e).1.finished = true
       then (advanceLoop cfg.getStateDuration cfg.maxStateIndex s.currentStateIndex
          ((s.timeSpentOnCurrentState + e) % U32)).2 else 0) ∧
    (StatefulController.doControl cfg s e).2.1.currentStateIndex =
      (advanceLoop cfg.getStateDuration cfg.maxStateIndex s.currentStateIndex
        ((s.timeSpentOnCurrentState + e) % U32)).1 ∧
    (StatefulController.doControl cfg s e).2.1.timeSpentOnCurrentState =
      (advanceLoop cfg.getStateDuration cfg.maxStateIndex s.currentStateIndex
        ((s.timeSpentOnCurrentState + e) % U32)).2 := by
  rw [StatefulController.doControl_live cfg s e h]
  obtain ⟨a1, a2, a3, a4, a5⟩ := StatefulController.afterLoop_spec cfg s
    (advanceLoop cfg.getStateDuration cfg.maxStateIndex s.currentStateIndex
      ((s.timeSpentOnCurrentState + e) % U32))
  exact ⟨a3, StatefulController.afterLoop_remainder cfg s _, a1, a2⟩

theorem LoopingController.doControl_doneLoops (cfg : LCConfig) (count : Nat)
    (child : SCState) (e : Nat) (h : cfg.maxLoopCount ≤ count) :
    LoopingController.doControl cfg ⟨count, child⟩ e =
      (finishedWorkState e, ⟨count, child⟩, []) := by
  unfold LoopingController.doControl
  rw [show cfg.maxLoopCount - count = 0 from by omega]
  simp only [LoopingController.doControlAux]
  rw [if_pos h]

theorem LoopingController.doControl_notFinished (cfg : LCConfig) (count : Nat)
    (child : SCState) (e : Nat) (hc : count < cfg.maxLoopCount)
    (hf : (StatefulController.doControl cfg.scfg child e).1.finished = false) :
    LoopingController.doControl cfg ⟨count, child⟩ e =
      ((StatefulController.doControl cfg.scfg child e).1,
        ⟨count, (StatefulController.doControl cfg.scfg child e).2.1⟩,
        (StatefulController.doControl cfg.scfg child e).2.2) := by
  unfold LoopingController.doControl
  rw [show cfg.maxLoopCount - count = (cfg.maxLoopCount - (count + 1)) + 1 from by omega]
  simp only [LoopingController.doControlAux]
  rw [if_neg (by omega), if_pos hf]

theorem LoopingController.doControl_lastIteration (cfg : LCConfig) (count : Nat)
    (child : SCState) (e : Nat) (hc : count < cfg.maxLoopCount)
    (hlast : cfg.maxLoopCount ≤ count + 1)
    (hf : (StatefulController.doControl cfg.scfg child e).1.finished = true) :
    LoopingController.doControl cfg ⟨count, child⟩ e =
      ((StatefulController.doControl cfg.scfg child e).1,
        ⟨count + 1, (StatefulController.doControl cfg.scfg child e).2.1⟩,
        (StatefulController.doControl cfg.scfg child e).2.2) := by
  unfold LoopingController.doControl
  rw [show cfg.maxLoopCount - count = (cfg.maxLoopCount - (count + 1)) + 1 from by omega]
  simp only [LoopingController.doControlAux]
  rw [if_neg (by omega), if_neg (by simp [hf]), if_pos hlast]

theorem LoopingController.doControl_reenter (cfg : LCConfig) (count : Nat)
    (child : SCState) (e : Nat) (hc : count + 1 < cfg.maxLoopCount)
    (hf : (StatefulController.doControl cfg.scfg child e).1.finished = true) :
    LoopingController.doControl cfg ⟨count, child⟩ e =
      ((LoopingController.doControl cfg
          ⟨count + 1, (StatefulController.reset cfg.scfg
            (StatefulController.doControl cfg.scfg child e).2.1).1⟩
          (StatefulController.doControl cfg.scfg child e).1.remainingTime).1,
        (LoopingController.doControl cfg
          ⟨count + 1, (StatefulController.reset cfg.scfg
            (StatefulController.doControl cfg.scfg child e).2.1).1⟩
          (StatefulController.doControl cfg.scfg child e).1.remainingTime).2.1,
        (StatefulController.doControl cfg.scfg child e).2.2 ++
          (StatefulController.reset cfg.scfg
            (StatefulController.doControl cfg.scfg child e).2.1).2 ++
          (LoopingController.doControl cfg
            ⟨count + 1, (StatefulController.reset cfg.scfg
              (StatefulController.doControl cfg.scfg child e).2.1).1⟩
            (StatefulController.doControl cfg.scfg child e).1.remainingTime).2.2) := by
  unfold LoopingController.doControl
  rw [show cfg.maxLoopCount - count = (cfg.maxLoopCount - (count + 1)) + 1 from by omega]
  simp only [LoopingController.doControlAux]
  rw [if_neg (by omega), if_neg (by simp [hf]), if_neg (by omega)]

theorem flatDur_eq (cfg : LCConfig) {c j : Nat} (hj : j < cfg.scfg.maxStateIndex) :
    (flatCfg cfg).getStateDuration (c * cfg.scfg.maxStateIndex + j) =
      cfg.scfg.getStateDuration j := by
  show cfg.scfg.getStateDuration
      ((c * cfg.scfg.maxStateIndex + j) % cfg.scfg.maxStateIndex) =
    cfg.scfg.getStateDuration j
  rw [Nat.mul_comm c cfg.scfg.maxStateIndex, Nat.mul_add_mod, Nat.mod_eq_of_lt hj]

theorem flatIdx_lt (cfg : LCConfig) {c j : Nat} (hc : c < cfg.maxLoopCount)
    (hj : j < cfg.scfg.maxStateIndex) :
    c * cfg.scfg.maxStateIndex + j < (flatCfg cfg).maxStateIndex := by
  show c * cfg.scfg.maxStateIndex + j < cfg.maxLoopCount * cfg.scfg.maxStateIndex
  have h2 : (c + 1) * cfg.scfg.maxStateIndex ≤
      cfg.maxLoopCount * cfg.scfg.maxStateIndex :=
    Nat.mul_le_mul_right _ hc
  have h3 : (c + 1) * cfg.scfg.maxStateIndex = c * cfg.scfg.maxStateIndex +
      cfg.scfg.maxStateIndex := by ring
  omega

/-- One child-machine segment of the flat machine's `while` loop: from
flat index `c*N + j` the flat loop behaves exactly like the child loop
from index `j`; if the child loop stops inside the segment, so does the
flat loop at the translated index, and if the child loop exhausts the
segment, the flat loop carries the leftover into the start of segment
`c + 1`. -/
theorem flatLoop_segment (cfg : LCConfig) :
    ∀ (k j t c : Nat), j < cfg.scfg.maxStateIndex → c < cfg.maxLoopCount →
      cfg.scfg.maxStateIndex - j ≤ k →
      (((advanceLoop cfg.scfg.getStateDuration cfg.scfg.maxStateIndex j t).1 <
          cfg.scfg.maxStateIndex →
        advanceLoop (flatCfg cfg).getStateDuration (flatCfg cfg).maxStateIndex
            (c * cfg.scfg.maxStateIndex + j) t =
          (c * cfg.scfg.maxStateIndex +
              (advanceLoop cfg.scfg.getStateDuration cfg.scfg.maxStateIndex j t).1,
            (advanceLoop cfg.scfg.getStateDuration cfg.scfg.maxStateIndex j t).2)) ∧
       (cfg.scfg.maxStateIndex ≤
          (advanceLoop cfg.scfg.getStateDuration cfg.scfg.maxStateIndex j t).1 →
        advanceLoop (flatCfg cfg).getStateDuration (flatCfg cfg).maxStateIndex
            (c * cfg.scfg.maxStateIndex + j) t =
          advanceLoop (flatCfg cfg).getStateDuration (flatCfg cfg).maxStateIndex
            ((c + 1) * cfg.scfg.maxStateIndex)
            (advanceLoop cfg.scfg.getStateDuration cfg.scfg.maxStateIndex j t).2)) := by
  intro k
  induction k with
  | zero =>
    intro j t c hj hc hk
    exact absurd hj (by omega)
  | succ k ih =>
    intro j t c hj hc hk
    have hflatidx := flatIdx_lt cfg hc hj
    have hfd := flatDur_eq cfg (c := c) hj
    rw [advanceLoop_eq cfg.scfg.getStateDuration cfg.scfg.maxStateIndex j t]
    rw [advanceLoop_eq (flatCfg cfg).getStateDuration (flatCfg cfg).maxStateIndex
      (c * cfg.scfg.maxStateIndex + j) t]
    by_cases hcond : cfg.scfg.getStateDuration j ≤ t
    · rw [if_pos ⟨hcond, hj⟩, if_pos ⟨by rwa [hfd], hflatidx⟩, hfd]
      by_cases hj1 : j + 1 < cfg.scfg.maxStateIndex
      · have hres := ih (j + 1) (t - cfg.scfg.getStateDuration j) c hj1 hc (by omega)
        rw [show c * cfg.scfg.maxStateIndex + j + 1 =
          c * cfg.scfg.maxStateIndex + (j + 1) from rfl]
        exact hres
      · have hjN : j + 1 = cfg.scfg.maxStateIndex := by omega
        rw [advanceLoop_eq cfg.scfg.getStateDuration cfg.scfg.maxStateIndex (j + 1)
          (t - cfg.scfg.getStateDuration j)]
        rw [if_neg (fun hh => absurd hh.2 (by omega))]
        constructor
        · intro hlt
          exact absurd (show j + 1 < cfg.scfg.maxStateIndex from hlt) (by omega)
        · intro _
          have h2 : c * cfg.scfg.maxStateIndex + j + 1 =
              (c + 1) * cfg.scfg.maxStateIndex := by
            have h3 : (c + 1) * cfg.scfg.maxStateIndex =
                c * cfg.scfg.maxStateIndex + cfg.scfg.maxStateIndex := by ring
            omega
          rw [h2]
    · rw [if_neg (fun hh => hcond hh.1),
        if_neg (fun hh => hcond (by have hd := hh.1; rwa [hfd] at hd))]
      constructor
      · intro _
        rfl
      · intro hge
        exact absurd (show cfg.scfg.maxStateIndex ≤ j from hge) (by omega)

theorem flatN_eq (cfg : LCConfig) :
    (flatCfg cfg).maxStateIndex = cfg.maxLoopCount * cfg.scfg.maxStateIndex := rfl

/-- The done/remainder projection and the stored index/time of a
`doControl` call on a live machine depend only on the `while` loop's
output pair. -/
theorem StatefulController.doControl_proj_eq (cfg : SCConfig) (s s' : SCState)
    (e e' : Nat)
    (hs : s.currentStateIndex < cfg.maxStateIndex)
    (hs' : s'.currentStateIndex < cfg.maxStateIndex)
    (hp : advanceLoop cfg.getStateDuration cfg.maxStateIndex s.currentStateIndex
        ((s.timeSpentOnCurrentState + e) % U32) =
      advanceLoop cfg.getStateDuration cfg.maxStateIndex s'.currentStateIndex
        ((s'.timeSpentOnCurrentState + e') % U32)) :
    (StatefulController.doControl cfg s e).1.finished =
      (StatefulController.doControl cfg s' e').1.finished ∧
    (StatefulController.doControl cfg s e).1.remainingTime =
      (StatefulController.doControl cfg s' e').1.remainingTime ∧
    (StatefulController.doControl cfg s e).2.1.currentStateIndex =
      (StatefulController.doControl cfg s' e').2.1.currentStateIndex ∧
    (StatefulController.doControl cfg s e).2.1.timeSpentOnCurrentState =
      (StatefulController.doControl cfg s' e').2.1.timeSpentOnCurrentState := by
  obtain ⟨f1, f2, f3, f4⟩ := StatefulController.doControl_features cfg s e hs
  obtain ⟨g1, g2, g3, g4⟩ := StatefulController.doControl_features cfg s' e' hs'
  rw [hp] at f1 f2 f3 f4
  have hfin : (StatefulController.doControl cfg s e).1.finished =
      (StatefulController.doControl cfg s' e').1.finished := by
    cases hb : (StatefulController.doControl cfg s e).1.finished
    · cases hb' : (StatefulController.doControl cfg s' e').1.finished
      · rfl
      · exact absurd (f1.mpr (g1.mp hb')) (by rw [hb]; exact Bool.false_ne_true)
    · exact (g1.mpr (f1.mp hb)).symm
  refine ⟨hfin, ?_, ?_, ?_⟩
  · rw [f2, g2, hfin]
  · rw [f3, g3]
  · rw [f4, g4]

theorem LCFlatRel_congr (cfg : LCConfig) (l : LCState) {f f' : SCState}
    (h1 : f.currentStateIndex = f'.currentStateIndex)
    (h2 : f.timeSpentOnCurrentState = f'.timeSpentOnCurrentState)
    (h : LCFlatRel cfg l f) : LCFlatRel cfg l f' := by
  unfold LCFlatRel at h ⊢
  rw [← h1, ← h2]
  exact h

/-- One `advance` call preserves the simulation between a live
`LoopingController` and the flat replicated machine, with equal
done/remainder projections. -/
theorem LCFlat_live (cfg : LCConfig) (hN : 0 < cfg.scfg.maxStateIndex) :
    ∀ (k count : Nat) (child f : SCState) (e : Nat),
      cfg.maxLoopCount - count ≤ k →
      count < cfg.maxLoopCount →
      child.currentStateIndex < cfg.scfg.maxStateIndex →
      f.currentStateIndex =
        count * cfg.scfg.maxStateIndex + child.currentStateIndex →
      f.timeSpentOnCurrentState = child.timeSpentOnCurrentState →
      ((LoopingController.doControl cfg ⟨count, child⟩ e).1.finished =
        (StatefulController.doControl (flatCfg cfg) f e).1.finished) ∧
      ((LoopingController.doControl cfg ⟨count, child⟩ e).1.remainingTime =
        (StatefulController.doControl (flatCfg cfg) f e).1.remainingTime) ∧
      LCFlatRel cfg (LoopingController.doControl cfg ⟨count, child⟩ e).2.1
        (StatefulController.doControl (flatCfg cfg) f e).2.1 := by
  intro k
  induction k with
  | zero =>
    intro count child f e hk hc _ _ _
    exact absurd hc (by omega)
  | succ k ih =>
    intro count child f e hk hc hj hfi hft
    obtain ⟨cf1, cf2, cf3, cf4⟩ := StatefulController.doControl_features cfg.scfg child e hj
    have hflt : f.currentStateIndex < (flatCfg cfg).maxStateIndex := by
      rw [hfi]
      exact flatIdx_lt cfg hc hj
    obtain ⟨ff1, ff2, ff3, ff4⟩ :=
      StatefulController.doControl_features (flatCfg cfg) f e hflt
    rw [hfi, hft] at ff1 ff2 ff3 ff4
    obtain ⟨l1, l2, l3, l4, l5, l6⟩ := advanceLoop_spec cfg.scfg.getStateDuration
      cfg.scfg.maxStateIndex child.currentStateIndex
      ((child.timeSpentOnCurrentState + e) % U32)
    obtain ⟨seg1, seg2⟩ := flatLoop_segment cfg
      (cfg.scfg.maxStateIndex - child.currentStateIndex) child.currentStateIndex
      ((child.timeSpentOnCurrentState + e) % U32) count hj hc (le_refl _)
    rcases Nat.lt_or_ge (advanceLoop cfg.scfg.getStateDuration cfg.scfg.maxStateIndex
      child.currentStateIndex ((child.timeSpentOnCurrentState + e) % U32)).1
      cfg.scfg.maxStateIndex with hq | hq
    · -- the child call does not finish: both sides stay in segment `count`
      have hpf := seg1 hq
      rw [hpf] at ff1 ff2 ff3 ff4
      have hchildNotFin :
          (StatefulController.doControl cfg.scfg child e).1.finished = false := by
        cases hb : (StatefulController.doControl cfg.scfg child e).1.finished
        · rfl
        · exact absurd (cf1.mp hb) (by omega)
      have hflatNotFin :
          (StatefulController.doControl (flatCfg cfg) f e).1.finished = false := by
        cases hb : (StatefulController.doControl (flatCfg cfg) f e).1.finished
        · rfl
        · exfalso
          have h1 : (flatCfg cfg).maxStateIndex ≤
              count * cfg.scfg.maxStateIndex +
                (advanceLoop cfg.scfg.getStateDuration cfg.scfg.maxStateIndex
                  child.currentStateIndex
                  ((child.timeSpentOnCurrentState + e) % U32)).1 := ff1.mp hb
          have h2 := flatIdx_lt cfg hc hq
          omega
      have hLC := LoopingController.doControl_notFinished cfg count child e hc hchildNotFin
      have hLC1 : (LoopingController.doControl cfg ⟨count, child⟩ e).1 =
          (StatefulController.doControl cfg.scfg child e).1 := by rw [hLC]
      have hLC2 : (LoopingController.doControl cfg ⟨count, child⟩ e).2.1 =
          (⟨count, (StatefulController.doControl cfg.scfg child e).2.1⟩ : LCState) := by
        rw [hLC]
      refine ⟨?_, ?_, ?_⟩
      · rw [hLC1, hchildNotFin, hflatNotFin]
      · rw [hLC1, cf2, ff2, hchildNotFin, hflatNotFin]
      · rw [hLC2]
        refine Or.inr ⟨hc, ?_, ?_, ?_⟩
        · show (StatefulController.doControl cfg.scfg child e).2.1.currentStateIndex <
            cfg.scfg.maxStateIndex
          rw [cf3]
          exact hq
        · show (StatefulController.doControl (flatCfg cfg) f e).2.1.currentStateIndex =
            count * cfg.scfg.maxStateIndex +
              (StatefulController.doControl cfg.scfg child e).2.1.currentStateIndex
          rw [cf3]
          exact ff3
        · show (StatefulController.doControl (flatCfg cfg)
              f e).2.1.timeSpentOnCurrentState =
            (StatefulController.doControl cfg.scfg child e).2.1.timeSpentOnCurrentState
          rw [cf4]
          exact ff4
    · -- the child call finishes its iteration
      have hchildFin : (StatefulController.doControl cfg.scfg child e).1.finished = true :=
        cf1.mpr hq
      have hrem : (StatefulController.doControl cfg.scfg child e).1.remainingTime =
          (advanceLoop cfg.scfg.getStateDuration cfg.scfg.maxStateIndex
            child.currentStateIndex ((child.timeSpentOnCurrentState + e) % U32)).2 := by
        rw [cf2, hchildFin]
        simp
      have hpf := seg2 hq
      rw [hpf] at ff1 ff2 ff3 ff4
      by_cases hlast : cfg.maxLoopCount ≤ count + 1
      · -- last iteration: the flat loop stops right at `M * N`
        have hM1 : count + 1 = cfg.maxLoopCount := by omega
        have hnotlt : ¬ ((count + 1) * cfg.scfg.maxStateIndex <
            (flatCfg cfg).maxStateIndex) := by
          rw [flatN_eq, hM1]
          omega
        have hploop : advanceLoop (flatCfg cfg).getStateDuration
            (flatCfg cfg).maxStateIndex ((count + 1) * cfg.scfg.maxStateIndex)
            (advanceLoop cfg.scfg.getStateDuration cfg.scfg.maxStateIndex
              child.currentStateIndex ((child.timeSpentOnCurrentState + e) % U32)).2 =
            ((count + 1) * cfg.scfg.maxStateIndex,
              (advanceLoop cfg.scfg.getStateDuration cfg.scfg.maxStateIndex
                child.currentStateIndex
                ((child.timeSpentOnCurrentState + e) % U32)).2) := by
          rw [advanceLoop_eq, if_neg (fun hh => hnotlt hh.2)]
        rw [hploop] at ff1 ff2 ff3 ff4
        have hflatFin :
            (StatefulController.doControl (flatCfg cfg) f e).1.finished = true := by
          apply ff1.mpr
          show (flatCfg cfg).maxStateIndex ≤ (count + 1) * cfg.scfg.maxStateIndex
          rw [flatN_eq, hM1]
        have hLC := LoopingController.doControl_lastIteration cfg count child e hc hlast
          hchildFin
        have hLC1 : (LoopingController.doControl cfg ⟨count, child⟩ e).1 =
            (StatefulController.doControl cfg.scfg child e).1 := by rw [hLC]
        have hLC2 : (LoopingController.doControl cfg ⟨count, child⟩ e).2.1 =
            (⟨count + 1, (StatefulController.doControl cfg.scfg child e).2.1⟩ :
              LCState) := by
          rw [hLC]
        refine ⟨?_, ?_, ?_⟩
        · rw [hLC1, hchildFin, hflatFin]
        · rw [hLC1, hrem, ff2, hflatFin]
          simp
        · rw [hLC2]
          refine Or.inl ⟨?_, ?_⟩
          · exact hlast
          · show (flatCfg cfg).maxStateIndex ≤
              (StatefulController.doControl (flatCfg cfg) f e).2.1.currentStateIndex
            rw [ff3]
            show (flatCfg cfg).maxStateIndex ≤ (count + 1) * cfg.scfg.maxStateIndex
            rw [flatN_eq, hM1]
      · -- more iterations remain: reset the child and re-enter
        have hm2 : count + 1 < cfg.maxLoopCount := by omega
        have hq2lt : (advanceLoop cfg.scfg.getStateDuration cfg.scfg.maxStateIndex
            child.currentStateIndex ((child.timeSpentOnCurrentState + e) % U32)).2 <
            U32 :=
          lt_of_le_of_lt l6 (Nat.mod_lt _ (by decide))
        obtain ⟨ih1, ih2, ih3⟩ := ih (count + 1)
          (StatefulController.reset cfg.scfg
            (StatefulController.doControl cfg.scfg child e).2.1).1
          ⟨(count + 1) * cfg.scfg.maxStateIndex, 0, f.fade⟩
          (StatefulController.doControl cfg.scfg child e).1.remainingTime
          (by omega) hm2 (by exact hN) rfl rfl
        have htrans := StatefulController.doControl_proj_eq (flatCfg cfg) f
          ⟨(count + 1) * cfg.scfg.maxStateIndex, 0, f.fade⟩ e
          (StatefulController.doControl cfg.scfg child e).1.remainingTime hflt
          (by
            show ((count + 1) * cfg.scfg.maxStateIndex : Nat) <
              (flatCfg cfg).maxStateIndex
            simpa using flatIdx_lt cfg (c := count + 1) (j := 0) hm2 hN)
          (by
            rw [hfi, hft, hpf]
            show advanceLoop (flatCfg cfg).getStateDuration (flatCfg cfg).maxStateIndex
                ((count + 1) * cfg.scfg.maxStateIndex)
                (advanceLoop cfg.scfg.getStateDuration cfg.scfg.maxStateIndex
                  child.currentStateIndex
                  ((child.timeSpentOnCurrentState + e) % U32)).2 =
              advanceLoop (flatCfg cfg).getStateDuration (flatCfg cfg).maxStateIndex
                ((count + 1) * cfg.scfg.maxStateIndex)
                ((0 + (StatefulController.doControl cfg.scfg child e).1.remainingTime) %
                  U32)
            rw [hrem, Nat.zero_add, Nat.mod_eq_of_lt hq2lt])
        obtain ⟨t1, t2, t3, t4⟩ := htrans
        have hLC := LoopingController.doControl_reenter cfg count child e hm2 hchildFin
        have hLC1 : (LoopingController.doControl cfg ⟨count, child⟩ e).1 =
            (LoopingController.doControl cfg
              ⟨count + 1, (StatefulController.reset cfg.scfg
                (StatefulController.doControl cfg.scfg child e).2.1).1⟩
              (StatefulController.doControl cfg.scfg child e).1.remainingTime).1 := by
          rw [hLC]
        have hLC2 : (LoopingController.doControl cfg ⟨count, child⟩ e).2.1 =
            (LoopingController.doControl cfg
              ⟨count + 1, (StatefulController.reset cfg.scfg
                (StatefulController.doControl cfg.scfg child e).2.1).1⟩
              (StatefulController.doControl cfg.scfg child e).1.remainingTime).2.1 := by
          rw [hLC]
        refine ⟨?_, ?_, ?_⟩
        · rw [hLC1, ih1, t1]
        · rw [hLC2] at *
          rw [hLC1, ih2, t2]
        · rw [hLC2]
          exact LCFlatRel_congr cfg _ t3.symm t4.symm ih3

theorem LCFlat_step (cfg : LCConfig) (hN : 0 < cfg.scfg.maxStateIndex)
    (l : LCState) (f : SCState) (e : Nat) (hR : LCFlatRel cfg l f) :
    ((LoopingController.doControl cfg l e).1.finished =
      (StatefulController.doControl (flatCfg cfg) f e).1.finished) ∧
    ((LoopingController.doControl cfg l e).1.remainingTime =
      (StatefulController.doControl (flatCfg cfg) f e).1.remainingTime) ∧
    LCFlatRel cfg (LoopingController.doControl cfg l e).2.1
      (StatefulController.doControl (flatCfg cfg) f e).2.1 := by
  obtain ⟨count, child⟩ := l
  unfold LCFlatRel at hR
  rcases hR with ⟨h1, h2⟩ | ⟨h1, h2, h3, h4⟩
  · rw [LoopingController.doControl_doneLoops cfg count child e h1,
      StatefulController.doControl_doneEntry (flatCfg cfg) f e h2]
    exact ⟨rfl, rfl, Or.inl ⟨h1, h2⟩⟩
  · exact LCFlat_live cfg hN (cfg.maxLoopCount - count) count child f e (le_refl _)
      h1 h2 h3 h4

/-- A live machine given a `uint32_t` budget: if the call finishes, it
consumed strictly positive time (the remainder is strictly below the
budget, also under wraparound); if it does not finish, it is live
again. -/
theorem StatefulController.doControl_progressOne (cfg : SCConfig) (s : SCState) (e : Nat)
    (ha : SCalive cfg s) (he : e < U32) :
    ((StatefulController.doControl cfg s e).1.finished = true →
      (StatefulController.doControl cfg s e).1.remainingTime < e) ∧
    ((StatefulController.doControl cfg s e).1.finished = false →
      SCalive cfg (StatefulController.doControl cfg s e).2.1) := by
  obtain ⟨h1, h2, h3⟩ := ha
  obtain ⟨cf1, cf2, cf3, cf4⟩ := StatefulController.doControl_features cfg s e h1
  obtain ⟨l1, l2, l3, l4, l5, l6⟩ := advanceLoop_spec cfg.getStateDuration
    cfg.maxStateIndex s.currentStateIndex ((s.timeSpentOnCurrentState + e) % U32)
  have ht0 : (s.timeSpentOnCurrentState + e) % U32 < U32 := Nat.mod_lt _ (by decide)
  constructor
  · intro hf
    have hq := cf1.mp hf
    have hmoved : s.currentStateIndex <
        (advanceLoop cfg.getStateDuration cfg.maxStateIndex s.currentStateIndex
          ((s.timeSpentOnCurrentState + e) % U32)).1 := by omega
    have hd := l5 hmoved
    have hmono : durSum cfg.getStateDuration (s.currentStateIndex + 1) ≤
        durSum cfg.getStateDuration
          (advanceLoop cfg.getStateDuration cfg.maxStateIndex s.currentStateIndex
            ((s.timeSpentOnCurrentState + e) % U32)).1 :=
      durSum_mono _ (by omega)
    have hstep : durSum cfg.getStateDuration (s.currentStateIndex + 1) =
        durSum cfg.getStateDuration s.currentStateIndex +
          cfg.getStateDuration s.currentStateIndex := rfl
    rw [cf2, hf, if_pos rfl]
    by_cases hw : s.timeSpentOnCurrentState + e < U32
    · have hmod : (s.timeSpentOnCurrentState + e) % U32 =
          s.timeSpentOnCurrentState + e := Nat.mod_eq_of_lt hw
      omega
    · have hmod : (s.timeSpentOnCurrentState + e) % U32 =
          s.timeSpentOnCurrentState + e - U32 := by
        rw [Nat.mod_eq_sub_mod (by omega), Nat.mod_eq_of_lt (by omega)]
      omega
  · intro hf
    have hq : (advanceLoop cfg.getStateDuration cfg.maxStateIndex s.currentStateIndex
        ((s.timeSpentOnCurrentState + e) % U32)).1 < cfg.maxStateIndex := by
      rcases Nat.lt_or_ge (advanceLoop cfg.getStateDuration cfg.maxStateIndex
        s.currentStateIndex ((s.timeSpentOnCurrentState + e) % U32)).1
        cfg.maxStateIndex with h | h
      · exact h
      · exact absurd (cf1.mpr h) (by rw [hf]; exact Bool.false_ne_true)
    refine ⟨?_, ?_, ?_⟩
    · rw [cf3]
      exact hq
    · rw [cf3, cf4]
      exact l4 hq
    · rw [cf4]
      omega

/-- A live repeater given a `uint32_t` budget, for a wrapped machine
whose state 0 exists and has positive duration: a finished call's
remainder is strictly below the budget, and an unfinished call leaves
the repeater live. -/
theorem LoopingController.doControl_progressAll (cfg : LCConfig)
    (hn : 0 < cfg.scfg.maxStateIndex) (hd0 : 0 < cfg.scfg.getStateDuration 0) :
    ∀ (k : Nat) (s : LCState) (e : Nat),
      cfg.maxLoopCount - s.currentLoopCount ≤ k →
      LCalive cfg s → e < U32 →
      ((LoopingController.doControl cfg s e).1.finished = true →
        (LoopingController.doControl cfg s e).1.remainingTime < e) ∧
      ((LoopingController.doControl cfg s e).1.finished = false →
        LCalive cfg (LoopingController.doControl cfg s e).2.1) := by
  intro k
  induction k with
  | zero =>
    intro s e hk ha _
    exact absurd ha.1 (by omega)
  | succ k ih =>
    intro s e hk ha he
    obtain ⟨count, child⟩ := s
    have hc : count < cfg.maxLoopCount := ha.1
    have hchild : SCalive cfg.scfg child := ha.2
    obtain ⟨p1, p2⟩ := StatefulController.doControl_progressOne cfg.scfg child e hchild he
    cases hb : (StatefulController.doControl cfg.scfg child e).1.finished
    · have hLC := LoopingController.doControl_notFinished cfg count child e hc hb
      constructor
      · intro hf
        exfalso
        rw [hLC] at hf
        have hf' : (StatefulController.doControl cfg.scfg child e).1.finished = true := hf
        simp [hb] at hf'
      · intro _
        rw [hLC]
        exact ⟨hc, p2 hb⟩
    · have hrem := p1 hb
      by_cases hlast : cfg.maxLoopCount ≤ count + 1
      · have hLC := LoopingController.doControl_lastIteration cfg count child e hc hlast hb
        constructor
        · intro _
          have hgoal : (LoopingController.doControl cfg ⟨count, child⟩ e).1.remainingTime =
              (StatefulController.doControl cfg.scfg child e).1.remainingTime := by
            rw [hLC]
          rw [hgoal]
          exact hrem
        · intro hf
          exfalso
          rw [hLC] at hf
          have hf' : (StatefulController.doControl cfg.scfg child e).1.finished = false := hf
          simp [hb] at hf'
      · have hm2 : count + 1 < cfg.maxLoopCount := by omega
        have hk' : cfg.maxLoopCount - count ≤ k + 1 := hk
        have hLC := LoopingController.doControl_reenter cfg count child e hm2 hb
        have halive : LCalive cfg
            ⟨count + 1, (StatefulController.reset cfg.scfg
              (StatefulController.doControl cfg.scfg child e).2.1).1⟩ :=
          ⟨hm2, hn, hd0, show (0 : Nat) < U32 by decide⟩
        obtain ⟨q1, q2⟩ := ih
          ⟨count + 1, (StatefulController.reset cfg.scfg
            (StatefulController.doControl cfg.scfg child e).2.1).1⟩
          (StatefulController.doControl cfg.scfg child e).1.remainingTime
          (show cfg.maxLoopCount - (count + 1) ≤ k from by omega)
          halive (lt_trans hrem he)
        constructor
        · intro hf
          rw [hLC] at hf
          have hf' : (LoopingController.doControl cfg
              ⟨count + 1, (StatefulController.reset cfg.scfg
                (StatefulController.doControl cfg.scfg child e).2.1).1⟩
              (StatefulController.doControl cfg.scfg child e).1.remainingTime).1.finished =
              true := hf
          have hlt := q1 hf'
          have hgoal : (LoopingController.doControl cfg ⟨count, child⟩ e).1.remainingTime =
              (LoopingController.doControl cfg
                ⟨count + 1, (StatefulController.reset cfg.scfg
                  (StatefulController.doControl cfg.scfg child e).2.1).1⟩
                (StatefulController.doControl cfg.scfg child e).1.remainingTime).1.remainingTime := by
            rw [hLC]
          rw [hgoal]
          exact lt_trans hlt hrem
        · intro hf
          rw [hLC] at hf
          have hf' : (LoopingController.doControl cfg
              ⟨count + 1, (StatefulController.reset cfg.scfg
                (StatefulController.doControl cfg.scfg child e).2.1).1⟩
              (StatefulController.doControl cfg.scfg child e).1.remainingTime).1.finished =
              false := hf
          have hgoal : (LoopingController.doControl cfg ⟨count, child⟩ e).2.1 =
              (LoopingController.doControl cfg
                ⟨count + 1, (StatefulController.reset cfg.scfg
                  (StatefulController.doControl cfg.scfg child e).2.1).1⟩
                (StatefulController.doControl cfg.scfg child e).1.remainingTime).2.1 := by
            rw [hLC]
          rw [hgoal]
          exact q2 hf'

theorem LoopingController.resetLoop_alive (cfg : LCConfig) (s : LCState)
    (h1 : 0 < cfg.maxLoopCount) (h2 : 0 < cfg.scfg.maxStateIndex)
    (h3 : 0 < cfg.scfg.getStateDuration 0) :
    LCalive cfg (LoopingController.reset cfg s).1 :=
  ⟨h1, h2, h3, show (0 : Nat) < U32 by decide⟩

theorem StatefulController.resetState_alive (cfg : SCConfig) (s : SCState)
    (h2 : 0 < cfg.maxStateIndex) (h3 : 0 < cfg.getStateDuration 0) :
    SCalive cfg (StatefulController.reset cfg s).1 :=
  ⟨h2, h3, show (0 : Nat) < U32 by decide⟩

/-- `switchToController` establishes the invariant for every in-range
index: every wired controller has iterations left after a reset, a
first state, and a positive first duration. -/
theorem MainInv_switchToController (s : MainState) (i : Nat) (h : i < 6) :
    MainInv (SwitchingController.switchToController s i) := by
  interval_cases i
  · exact Or.inl ⟨rfl,
      LoopingController.resetLoop_alive _ _ (by decide) (by decide) (by decide)⟩
  · exact Or.inr (Or.inl ⟨rfl,
      LoopingController.resetLoop_alive _ _ (by decide) (by decide) (by decide)⟩)
  · exact Or.inr (Or.inr (Or.inl ⟨rfl,
      LoopingController.resetLoop_alive _ _ (by decide) (by decide) (by decide)⟩))
  · exact Or.inr (Or.inr (Or.inr (Or.inl ⟨rfl,
      LoopingController.resetLoop_alive _ _ (by decide) (by decide) (by decide)⟩)))
  · exact Or.inr (Or.inr (Or.inr (Or.inr (Or.inl ⟨rfl,
      LoopingController.resetLoop_alive _ _ (by decide) (by decide) (by decide)⟩))))
  · exact Or.inr (Or.inr (Or.inr (Or.inr (Or.inr ⟨rfl,
      StatefulController.resetState_alive _ _ (by decide) (by decide)⟩))))

/-- Delegating the budget to the current controller under the
invariant: a finished result strictly shrinks the budget, an unfinished
result preserves the invariant. -/
theorem dispatch_progress (s : MainState) (e : Nat) (hInv : MainInv s) (he : e < U32) :
    ((SwitchingController.dispatchDoControl s s.currentControllerIndex e).1.finished =
        true →
      (SwitchingController.dispatchDoControl s
        s.currentControllerIndex e).1.remainingTime < e) ∧
    ((SwitchingController.dispatchDoControl s s.currentControllerIndex e).1.finished =
        false →
      MainInv (SwitchingController.dispatchDoControl s s.currentControllerIndex e).2) := by
  unfold MainInv at hInv
  rcases hInv with ⟨h0, ha⟩ | ⟨h0, ha⟩ | ⟨h0, ha⟩ | ⟨h0, ha⟩ | ⟨h0, ha⟩ | ⟨h0, ha⟩
  · rw [h0]
    simp only [SwitchingController.dispatchDoControl]
    obtain ⟨g1, g2⟩ := LoopingController.doControl_progressAll
      slowTwoLedCombinationsControllerLoop (by decide) (by decide)
      (slowTwoLedCombinationsControllerLoop.maxLoopCount - s.slowLoop.currentLoopCount)
      s.slowLoop e (le_refl _) ha he
    exact ⟨g1, fun hf => Or.inl ⟨h0, g2 hf⟩⟩
  · rw [h0]
    simp only [SwitchingController.dispatchDoControl]
    obtain ⟨g1, g2⟩ := LoopingController.doControl_progressAll
      fastTwoLedCombinationsControllerLoop (by decide) (by decide)
      (fastTwoLedCombinationsControllerLoop.maxLoopCount - s.fastLoop.currentLoopCount)
      s.fastLoop e (le_refl _) ha he
    exact ⟨g1, fun hf => Or.inr (Or.inl ⟨h0, g2 hf⟩)⟩
  · rw [h0]
    simp only [SwitchingController.dispatchDoControl]
    obtain ⟨g1, g2⟩ := LoopingController.doControl_progressAll
      sequentialFadeControllerLoop (by decide) (by decide)
      (sequentialFadeControllerLoop.maxLoopCount - s.seqLoop.currentLoopCount)
      s.seqLoop e (le_refl _) ha he
    exact ⟨g1, fun hf => Or.inr (Or.inr (Or.inl ⟨h0, g2 hf⟩))⟩
  · rw [h0]
    simp only [SwitchingController.dispatchDoControl]
    obtain ⟨g1, g2⟩ := LoopingController.doControl_progressAll
      flowingThreeLedsControllerLoop (by decide) (by decide)
      (flowingThreeLedsControllerLoop.maxLoopCount - s.flowLoop.currentLoopCount)
      s.flowLoop e (le_refl _) ha he
    exact ⟨g1, fun hf => Or.inr (Or.inr (Or.inr (Or.inl ⟨h0, g2 hf⟩)))⟩
  · rw [h0]
    simp only [SwitchingController.dispatchDoControl]
    obtain ⟨g1, g2⟩ := LoopingController.doControl_progressAll
      twoLedCombinationsFadeOutThenInControllerLoop (by decide) (by decide)
      (twoLedCombinationsFadeOutThenInControllerLoop.maxLoopCount -
        s.fadeOutInLoop.currentLoopCount)
      s.fadeOutInLoop e (le_refl _) ha he
    exact ⟨g1, fun hf => Or.inr (Or.inr (Or.inr (Or.inr (Or.inl ⟨h0, g2 hf⟩))))⟩
  · rw [h0]
    simp only [SwitchingController.dispatchDoControl]
    obtain ⟨g1, g2⟩ := StatefulController.doControl_progressOne oneByOneFadeController
      s.oneByOne e ha he
    exact ⟨g1, fun hf => Or.inr (Or.inr (Or.inr (Or.inr (Or.inr ⟨h0, g2 hf⟩))))⟩

/-- The sequencer's `do`/`while` loop always exits (with the invariant
preserved) given fuel exceeding the budget: every finished delegation
strictly shrinks the remaining budget. -/
theorem SwitchingController.doControlLoop_some :
    ∀ (b : Nat), b < U32 → ∀ (s : MainState), MainInv s → ∀ (fuel : Nat), b < fuel →
      ∃ sl s', SwitchingController.doControlLoop fuel s b = some (sl, s') ∧
        MainInv s' := by
  intro b
  induction b using Nat.strong_induction_on with
  | _ b ihb =>
    intro hbU s hInv fuel hfuel
    rcases fuel with _ | fuel
    · omega
    · simp only [SwitchingController.doControlLoop]
      obtain ⟨p1, p2⟩ := dispatch_progress s b hInv hbU
      cases hb : (SwitchingController.dispatchDoControl s
        s.currentControllerIndex b).1.finished
      · rw [if_neg (show ¬ ((false : Bool) = true) from Bool.false_ne_true)]
        exact ⟨_, _, rfl, p2 hb⟩
      · rw [if_pos (show (true : Bool) = true from rfl)]
        have hlt := p1 hb
        have hnext : (if s.currentControllerIndex <
            SwitchingController.getControllerCount - 1
            then s.currentControllerIndex + 1 else 0) < 6 := by
          by_cases hcc : s.currentControllerIndex <
            SwitchingController.getControllerCount - 1
          · rw [if_pos hcc]
            have hcount : SwitchingController.getControllerCount = 6 := rfl
            omega
          · rw [if_neg hcc]
            omega
        exact ihb
          (SwitchingController.dispatchDoControl s
            s.currentControllerIndex b).1.remainingTime
          hlt (by omega) _ (MainInv_switchToController _ _ hnext) fuel (by omega)

/-- One external `doControl` on the sequencer from an invariant state:
the result is not-done and the invariant is preserved. -/
theorem SwitchingController.doControl_notDone (s : MainState) (e : Nat)
    (hInv : MainInv s) (he : e < U32) :
    (SwitchingController.doControl s e).1.finished = false ∧
    MainInv (SwitchingController.doControl s e).2 := by
  obtain ⟨sl, s', hsome, hInv'⟩ := SwitchingController.doControlLoop_some e he s hInv
    (e + 1) (by omega)
  unfold SwitchingController.doControl
  rw [hsome]
  exact ⟨rfl, hInv'⟩

/-! ### Claim theorems -/

/-- C1 counterexample: on the wired `SequentialFadeController`,
`reset()` does *not* leave the fade-in-progress flag cleared — the
state-0 activation callback it invokes starts the state-0 fade, so the
flag is raised immediately after `reset()` returns, even from the
freshly constructed state. -/
theorem reset_clears_fade_cex :
    ¬ ((StatefulController.reset sequentialFadeController
        initialSCState).1.fade.pwmTransitionInProgress = false) := by
  decide

/-- C1 (amended): `reset()` puts the state index and the accumulated
time back to zero and invokes the activation callback for state 0
exactly once; the fade fields afterwards are exactly what that callback
produces from the previous fade fields (`reset` itself never clears the
fade-in-progress flag — a fade subclass's callback raises it, a digital
subclass's callback leaves it untouched). -/
theorem reset_initial_state (cfg : SCConfig) (s : SCState) :
    (StatefulController.reset cfg s).1.currentStateIndex = 0 ∧
    (StatefulController.reset cfg s).1.timeSpentOnCurrentState = 0 ∧
    (StatefulController.reset cfg s).2 = [0] ∧
    (StatefulController.reset cfg s).1.fade = cfg.applyLedStatesForState 0 s.fade :=
  ⟨rfl, rfl, rfl, rfl⟩

/-- C2 counterexample: with `uint32_t` arithmetic the conservation
claim fails as stated.  Durations `[2^32 - 1, 5]`, calls
`[2^32 - 2, 2]`: the total `T = 2^32` is below the total duration
`2^32 + 4`, and indeed every call reports not-done — but the second
call wraps `_timeSpentOnCurrentState` to `0`, so the machine's internal
accounting is `0 ≠ T`. -/
theorem conservation_uint32_cex :
    ([4294967294, 2].sum <
      durSum overflowDemoCfg.getStateDuration overflowDemoCfg.maxStateIndex) ∧
    (∀ r ∈ (StatefulController.run overflowDemoCfg
        ⟨0, 0, idleFade⟩ [4294967294, 2]).1, r.finished = false) ∧
    consumed overflowDemoCfg
        (StatefulController.run overflowDemoCfg
          ⟨0, 0, idleFade⟩ [4294967294, 2]).2 ≠
      [4294967294, 2].sum := by
  decide

/-- C2 (amended): conservation of time holds whenever the total
injected time fits in `uint32_t` (`T < 2^32`): starting from a reset
state, if the elapsed times sum to `T` strictly below the total of all
state durations, every call reports not-done and the machine's internal
accounting (durations of all completed states plus the accumulated time
in the current state) equals `T` exactly. -/
theorem conservation_of_time (cfg : SCConfig) (fade0 : FadeState) (es : List Nat)
    (hD : es.sum < durSum cfg.getStateDuration cfg.maxStateIndex)
    (hW : es.sum < U32) :
    (∀ r ∈ (StatefulController.run cfg ⟨0, 0, fade0⟩ es).1, r.finished = false) ∧
    consumed cfg (StatefulController.run cfg ⟨0, 0, fade0⟩ es).2 = es.sum := by
  have hn : (0 : Nat) < cfg.maxStateIndex := by
    rcases Nat.eq_zero_or_pos cfg.maxStateIndex with h | h
    · rw [h] at hD
      simp [durSum] at hD
    · exact h
  obtain ⟨r1, r2, r3⟩ := StatefulController.run_conserve cfg es ⟨0, 0, fade0⟩ 0 hn rfl
    (by omega) (by omega)
  exact ⟨r1, by omega⟩

/-- C2 witness: two states of duration 10 each, calls `[5, 7]`. -/
theorem conservation_of_time_witness :
    ([5, 7].sum < durSum (uniformDigitalCfg 2 10).getStateDuration
        (uniformDigitalCfg 2 10).maxStateIndex ∧
      [5, 7].sum < U32) ∧
    ((∀ r ∈ (StatefulController.run (uniformDigitalCfg 2 10) ⟨0, 0, idleFade⟩
        [5, 7]).1, r.finished = false) ∧
      consumed (uniformDigitalCfg 2 10)
        (StatefulController.run (uniformDigitalCfg 2 10) ⟨0, 0, idleFade⟩ [5, 7]).2 =
        [5, 7].sum) :=
  ⟨⟨by decide, by decide⟩,
    conservation_of_time (uniformDigitalCfg 2 10) idleFade [5, 7] (by decide) (by decide)⟩

/-- C3 counterexample: the overshoot remainder is *not* independent of
how the excess is split.  One state of duration 10; delivering 17 in
one call yields `done` with remainder 7, while delivering `[12, 5]`
(same total 17, same excess `X = 7`) ends with a final call whose
remainder is 5, because the first call already finishes the machine and
the trailing call's time is returned as its own remainder. -/
theorem overshoot_split_cex :
    (StatefulController.run (uniformDigitalCfg 1 10) ⟨0, 0, idleFade⟩ [17]).1.getLast? =
      some (finishedWorkState 7) ∧
    (StatefulController.run (uniformDigitalCfg 1 10) ⟨0, 0, idleFade⟩ [12, 5]).1.getLast? =
      some (finishedWorkState 5) ∧
    ¬ ((7 : Nat) = 5) := by
  decide

/-- C3 (amended): starting from a reset state, when every call before
the last keeps the injected total strictly below the total duration
`D`, and the final call pushes the total `es.sum + e` to at least `D`
(with the total below `2^32`, as all arithmetic is `uint32_t`), then
every earlier call reports not-done and the final call reports done
with remainder exactly `es.sum + e - D`.  In particular exact
exhaustion (`es.sum + e = D`) yields remainder 0, and an excess `X`
gives remainder `X` however it is split across calls, provided only the
final call reaches `D`. -/
theorem exhaustion_overshoot (cfg : SCConfig) (fade0 : FadeState) (es : List Nat)
    (e : Nat)
    (hpre : es.sum < durSum cfg.getStateDuration cfg.maxStateIndex)
    (hfin : durSum cfg.getStateDuration cfg.maxStateIndex ≤ es.sum + e)
    (hW : es.sum + e < U32) :
    (∀ r ∈ (StatefulController.run cfg ⟨0, 0, fade0⟩ es).1, r.finished = false) ∧
    (StatefulController.doControl cfg
        (StatefulController.run cfg ⟨0, 0, fade0⟩ es).2 e).1 =
      finishedWorkState (es.sum + e - durSum cfg.getStateDuration cfg.maxStateIndex) := by
  have hn : (0 : Nat) < cfg.maxStateIndex := by
    rcases Nat.eq_zero_or_pos cfg.maxStateIndex with h | h
    · rw [h] at hpre
      simp [durSum] at hpre
    · exact h
  obtain ⟨r1, r2, r3⟩ := StatefulController.run_conserve cfg es ⟨0, 0, fade0⟩ 0 hn rfl
    (by omega) (by omega)
  refine ⟨r1, ?_⟩
  have htle : (StatefulController.run cfg ⟨0, 0, fade0⟩ es).2.timeSpentOnCurrentState ≤
      es.sum := by
    unfold consumed at r3
    omega
  have hf := StatefulController.doControl_finishes cfg
    (StatefulController.run cfg ⟨0, 0, fade0⟩ es).2 e r2 (by omega) (by omega)
  rw [hf]
  congr 1
  omega

/-- C3 witness: two states of duration 15 each, one call of 12 then a
final call of 25: total 37, total duration 30, remainder 7. -/
theorem exhaustion_overshoot_witness :
    ([12].sum < durSum (uniformDigitalCfg 2 15).getStateDuration
        (uniformDigitalCfg 2 15).maxStateIndex ∧
      durSum (uniformDigitalCfg 2 15).getStateDuration
        (uniformDigitalCfg 2 15).maxStateIndex ≤ [12].sum + 25 ∧
      [12].sum + 25 < U32) ∧
    ((∀ r ∈ (StatefulController.run (uniformDigitalCfg 2 15) ⟨0, 0, idleFade⟩
        [12]).1, r.finished = false) ∧
      (StatefulController.doControl (uniformDigitalCfg 2 15)
          (StatefulController.run (uniformDigitalCfg 2 15) ⟨0, 0, idleFade⟩ [12]).2
          25).1 =
        finishedWorkState ([12].sum + 25 -
          durSum (uniformDigitalCfg 2 15).getStateDuration
            (uniformDigitalCfg 2 15).maxStateIndex)) :=
  ⟨⟨by decide, by decide, by decide⟩,
    exhaustion_overshoot (uniformDigitalCfg 2 15) idleFade [12] 25 (by decide) (by decide)
      (by decide)⟩

/-- C4: Repeater equivalence — a `LoopingController` with iteration
count `M` wrapping a machine of `N ≥ 1` states is equivalent, in its
done/not-done flag and its remainder, to a single flat machine with
`M * N` states in which states `[k*N, (k+1)*N)` replicate the original
durations, for every sequence of `advance` calls from the reset state
and for every `M` (including `M = 0`, `M = 1`, `M = 3`). -/
theorem repeater_equivalence (cfg : LCConfig) (hN : 0 < cfg.scfg.maxStateIndex)
    (fadeL fadeF : FadeState) (es : List Nat) :
    (LoopingController.run cfg ⟨0, ⟨0, 0, fadeL⟩⟩ es).1.map doneRemainder =
      (StatefulController.run (flatCfg cfg) ⟨0, 0, fadeF⟩ es).1.map doneRemainder := by
  have main : ∀ (es : List Nat) (l : LCState) (f : SCState), LCFlatRel cfg l f →
      (LoopingController.run cfg l es).1.map doneRemainder =
        (StatefulController.run (flatCfg cfg) f es).1.map doneRemainder := by
    intro es
    induction es with
    | nil =>
      intro l f _
      rfl
    | cons e es ihe =>
      intro l f h
      obtain ⟨s1, s2, s3⟩ := LCFlat_step cfg hN l f e h
      simp only [LoopingController.run, StatefulController.run, List.map_cons]
      congr 1
      · unfold doneRemainder
        rw [s1, s2]
      · exact ihe _ _ s3
  apply main
  unfold LCFlatRel
  rcases Nat.eq_zero_or_pos cfg.maxLoopCount with hM | hM
  · left
    constructor
    · show cfg.maxLoopCount ≤ 0
      omega
    · show (flatCfg cfg).maxStateIndex ≤ 0
      rw [flatN_eq, hM, Nat.zero_mul]
  · right
    refine ⟨hM, hN, ?_, rfl⟩
    show (0 : Nat) = 0 * cfg.scfg.maxStateIndex + 0
    rw [Nat.zero_mul]

/-- C4 witness: `M = 3` over a two-state machine of duration 10 each,
with a call sequence that crosses iteration boundaries. -/
theorem repeater_equivalence_witness :
    (0 < (LCConfig.mk (uniformDigitalCfg 2 10) 3).scfg.maxStateIndex) ∧
    (LoopingController.run (LCConfig.mk (uniformDigitalCfg 2 10) 3)
        ⟨0, ⟨0, 0, idleFade⟩⟩ [25, 35, 100]).1.map doneRemainder =
      (StatefulController.run (flatCfg (LCConfig.mk (uniformDigitalCfg 2 10) 3))
        ⟨0, 0, idleFade⟩ [25, 35, 100]).1.map doneRemainder :=
  ⟨by decide,
    repeater_equivalence (LCConfig.mk (uniformDigitalCfg 2 10) 3) (by decide)
      idleFade idleFade [25, 35, 100]⟩

/-- C5: the top-level `SwitchingController` never reports done: for
every finite sequence of `advance` calls with positive `uint32_t`
elapsed times, starting after `reset()`, every call returns a
`WorkState` with `finished = false`; internally the `do`/`while` loop
always terminates, each finished sub-controller's remainder being fed
to the next (reset) controller within the same call. -/
theorem sequencer_never_done (es : List Nat) (hes : ∀ e ∈ es, 0 < e ∧ e < U32) :
    ∀ r ∈ (SwitchingController.run (SwitchingController.reset mainInitialState) es).1,
      r.finished = false := by
  have main : ∀ (es : List Nat) (s : MainState), MainInv s → (∀ e ∈ es, e < U32) →
      ∀ r ∈ (SwitchingController.run s es).1, r.finished = false := by
    intro es
    induction es with
    | nil =>
      intro s _ _ r hr
      simp [SwitchingController.run] at hr
    | cons e es ih =>
      intro s hInv hbound r hr
      obtain ⟨hf, hInv'⟩ := SwitchingController.doControl_notDone s e hInv
        (hbound e (by simp))
      simp only [SwitchingController.run] at hr
      rcases List.mem_cons.mp hr with h | h
      · rw [h]
        exact hf
      · exact ih _ hInv' (fun x hx => hbound x (by simp [hx])) r h
  exact main es _ (MainInv_switchToController mainInitialState 0 (by omega))
    (fun e he => (hes e he).2)

/-- C5 witness: a single call of 40000 time units, enough to finish the
first two wired controllers entirely (20000 each) and enter the
third within the same call. -/
theorem sequencer_never_done_witness :
    (∀ e ∈ [40000], 0 < e ∧ e < U32) ∧
    (∀ r ∈ (SwitchingController.run (SwitchingController.reset mainInitialState)
        [40000]).1, r.finished = false) :=
  ⟨by decide, sequencer_never_done [40000] (by decide)⟩

/-- C6 counterexample: activation callbacks do *not* fire for
intermediate states crossed within a single call.  Three states of
duration 10 each; `advance(25)` from the reset state crosses state 1
and lands in state 2, but only state 2's callback is invoked — state
1's activation never fires. -/
theorem activation_intermediate_cex :
    (StatefulController.doControl (uniformDigitalCfg 3 10) ⟨0, 0, idleFade⟩
        25).2.1.currentStateIndex = 2 ∧
    (StatefulController.doControl (uniformDigitalCfg 3 10) ⟨0, 0, idleFade⟩
        25).1.finished = false ∧
    (StatefulController.doControl (uniformDigitalCfg 3 10) ⟨0, 0, idleFade⟩ 25).2.2 =
      [2] ∧
    ¬ (1 ∈ (StatefulController.doControl (uniformDigitalCfg 3 10) ⟨0, 0, idleFade⟩
        25).2.2) := by
  decide

/-- C6 (amended): during a single `doControl` call, the activation
callback fires exactly once, for the final state, when the call does
not finish and the state index changed — intermediate states crossed by
the `while` loop are skipped without their callbacks firing — and no
callback fires when the index is unchanged or when the call finishes. -/
theorem activation_once (cfg : SCConfig) (s : SCState) (e : Nat) :
    (StatefulController.doControl cfg s e).2.2 =
      (if (StatefulController.doControl cfg s e).1.finished = false ∧
          s.currentStateIndex ≠
            (StatefulController.doControl cfg s e).2.1.currentStateIndex
       then [(StatefulController.doControl cfg s e).2.1.currentStateIndex]
       else []) := by
  unfold StatefulController.doControl
  by_cases h : cfg.maxStateIndex ≤ s.currentStateIndex
  · rw [if_pos h]
    simp [finishedWorkState]
  · rw [if_neg h]
    obtain ⟨a1, a2, a3, a4, a5⟩ := StatefulController.afterLoop_spec cfg s
      (advanceLoop cfg.getStateDuration cfg.maxStateIndex s.currentStateIndex
        ((s.timeSpentOnCurrentState + e) % U32))
    rw [a1, a5]

/-- C7: one `advance` call terminates despite zero durations and zero
iteration counts: the state-machine `while` loop reaches its exit
within `n - i ≤ N` iterations (each iteration strictly increments the
state index, which is bounded by `N`), and the Repeater's re-entry
chain settles within `maxLoopCount - count ≤ M` re-entries (each
re-entry strictly increments the loop counter, which is bounded by
`M`): running either with any fuel at least that bound returns the very
same result as the canonical bounded run. -/
theorem advance_terminates_bounded (dur : Nat → Nat) (n fuel i t : Nat)
    (cfg : LCConfig) (fuel2 count : Nat) (child : SCState) (e : Nat)
    (h1 : n - i ≤ fuel) (h2 : cfg.maxLoopCount - count ≤ fuel2) :
    advanceLoopAux dur n fuel i t = advanceLoop dur n i t ∧
    LoopingController.doControlAux cfg fuel2 count child e =
      LoopingController.doControl cfg ⟨count, child⟩ e :=
  ⟨advanceLoopAux_fuel dur n fuel i t h1,
   LoopingController.doControlAux_fuel cfg fuel2 count child e h2⟩

/-- C7 witness: all-zero durations and a two-iteration repeater over a
zero-duration machine; extra fuel changes nothing. -/
theorem advance_terminates_bounded_witness :
    ((3 : Nat) - 0 ≤ 9 ∧
      (LCConfig.mk (uniformDigitalCfg 2 0) 2).maxLoopCount - 0 ≤ 7) ∧
    (advanceLoopAux (fun _ => 0) 3 9 0 7 = advanceLoop (fun _ => 0) 3 0 7 ∧
      LoopingController.doControlAux (LCConfig.mk (uniformDigitalCfg 2 0) 2) 7 0
          initialSCState 5 =
        LoopingController.doControl (LCConfig.mk (uniformDigitalCfg 2 0) 2)
          ⟨0, initialSCState⟩ 5) :=
  ⟨⟨by decide, by decide⟩,
    advance_terminates_bounded (fun _ => 0) 3 9 0 7
      (LCConfig.mk (uniformDigitalCfg 2 0) 2) 7 0 initialSCState 5 (by decide)
      (by decide)⟩

theorem roundF32_eval (x s : ℚ) (e : ℤ) (hx : ¬ x < 0) (he : ilog2q x = e)
    (hs : pow2z (23 - e) = s) :
    roundF32 x = (roundHalfEven (x * s) : ℚ) / s := by
  unfold roundF32
  rw [if_neg hx]
  unfold roundF32pos
  rw [he, hs]

theorem roundF32_val_tiny : roundF32 (1 / 33554432 : ℚ) = 1 / 33554432 := by
  rw [roundF32_eval (1 / 33554432 : ℚ) 281474976710656 (-25)
    (by with_unfolding_all decide) (by with_unfolding_all decide)
    (Rat.ext (by with_unfolding_all decide) (by with_unfolding_all decide))]
  rw [show (1 / 33554432 : ℚ) * 281474976710656 = 8388608 from by norm_num]
  rw [show roundHalfEven (8388608 : ℚ) = 8388608 from by with_unfolding_all decide]
  norm_num

theorem roundF32_val_target : roundF32 (8388611 / 16777216 : ℚ) = 8388611 / 16777216 := by
  rw [roundF32_eval (8388611 / 16777216 : ℚ) 16777216 (-1)
    (by with_unfolding_all decide) (by with_unfolding_all decide)
    (Rat.ext (by with_unfolding_all decide) (by with_unfolding_all decide))]
  rw [show (8388611 / 16777216 : ℚ) * 16777216 = 8388611 from by norm_num]
  rw [show roundHalfEven (8388611 : ℚ) = 8388611 from by with_unfolding_all decide]
  norm_num

theorem roundF32_val_delta : roundF32 (16777221 / 33554432 : ℚ) = 4194305 / 8388608 := by
  rw [roundF32_eval (16777221 / 33554432 : ℚ) 16777216 (-1)
    (by with_unfolding_all decide) (by with_unfolding_all decide)
    (Rat.ext (by with_unfolding_all decide) (by with_unfolding_all decide))]
  rw [show (16777221 / 33554432 : ℚ) * 16777216 = 16777221 / 2 from by norm_num]
  rw [show roundHalfEven (16777221 / 2 : ℚ) = 8388610 from by with_unfolding_all decide]
  norm_num

theorem roundF32_val_near : roundF32 (4194305 / 8388608 : ℚ) = 4194305 / 8388608 := by
  rw [roundF32_eval (4194305 / 8388608 : ℚ) 16777216 (-1)
    (by with_unfolding_all decide) (by with_unfolding_all decide)
    (Rat.ext (by with_unfolding_all decide) (by with_unfolding_all decide))]
  rw [show (4194305 / 8388608 : ℚ) * 16777216 = 8388610 from by norm_num]
  rw [show roundHalfEven (8388610 : ℚ) = 8388610 from by with_unfolding_all decide]
  norm_num

theorem roundF32_val_quarter : roundF32 (1 / 4 : ℚ) = 1 / 4 := by
  rw [roundF32_eval (1 / 4 : ℚ) 33554432 (-2)
    (by with_unfolding_all decide) (by with_unfolding_all decide)
    (Rat.ext (by with_unfolding_all decide) (by with_unfolding_all decide))]
  rw [show (1 / 4 : ℚ) * 33554432 = 8388608 from by norm_num]
  rw [show roundHalfEven (8388608 : ℚ) = 8388608 from by with_unfolding_all decide]
  norm_num

theorem roundF32_zero : roundF32 0 = 0 := by
  rw [roundF32_eval 0 16777216 (-1)
    (by with_unfolding_all decide) (by with_unfolding_all decide)
    (Rat.ext (by with_unfolding_all decide) (by with_unfolding_all decide))]
  rw [show (0 : ℚ) * 16777216 = 0 from by norm_num]
  rw [show roundHalfEven (0 : ℚ) = 0 from by with_unfolding_all decide]
  norm_num

/-- C8 counterexample: under the source's IEEE-754 single-precision
`float` arithmetic the endpoint identity `interpolate(A, B, 1) = B`
fails.  With `initial = 2⁻²⁵` and `target = 1/2 + 3·2⁻²⁴` — both
exactly representable binary32 values inside `[0, 1]` — the computation
`initial + 1·(target - initial)` rounds twice (both halfway cases, each
tied to even) and lands one ulp (`2⁻²⁴`) below the target, at
`1/2 + 2⁻²³`. -/
theorem fade_endpoint_float_cex :
    roundF32 (1 / 33554432 : ℚ) = (1 / 33554432 : ℚ) ∧
    roundF32 (1 / 2 + 3 / 16777216 : ℚ) = (1 / 2 + 3 / 16777216 : ℚ) ∧
    (0 : ℚ) ≤ 1 / 33554432 ∧ (1 / 33554432 : ℚ) ≤ 1 ∧
    (0 : ℚ) ≤ 1 / 2 + 3 / 16777216 ∧ (1 / 2 + 3 / 16777216 : ℚ) ≤ 1 ∧
    intermediateValueF32 (1 / 33554432) (1 / 2 + 3 / 16777216) 1 =
      1 / 2 + 1 / 8388608 ∧
    intermediateStateF32 (analogLedsState (1 / 33554432) 0 0 0 0)
        (analogLedsState (1 / 2 + 3 / 16777216) 0 0 0 0) 1 ≠
      analogLedsState (1 / 2 + 3 / 16777216) 0 0 0 0 := by
  have hb : (1 / 2 + 3 / 16777216 : ℚ) = 8388611 / 16777216 := by norm_num
  have hmain : intermediateValueF32 (1 / 33554432) (1 / 2 + 3 / 16777216) 1 =
      1 / 2 + 1 / 8388608 := by
    rw [hb, show (1 / 2 + 1 / 8388608 : ℚ) = 4194305 / 8388608 from by norm_num]
    unfold intermediateValueF32
    rw [show (8388611 / 16777216 : ℚ) - 1 / 33554432 = 16777221 / 33554432 from by
      norm_num]
    rw [roundF32_val_delta, one_mul, roundF32_val_near]
    rw [show (1 / 33554432 : ℚ) + 4194305 / 8388608 = 16777221 / 33554432 from by
      norm_num]
    exact roundF32_val_delta
  refine ⟨roundF32_val_tiny, ?_, by norm_num, by norm_num, by norm_num, by norm_num,
    hmain, ?_⟩
  · rw [hb]
    exact roundF32_val_target
  · intro hcontra
    have hred := congrArg AnalogLedsState.red hcontra
    have hred' : intermediateValueF32 (1 / 33554432) (1 / 2 + 3 / 16777216)
        (constrain 1 0 1) = 1 / 2 + 3 / 16777216 := hred
    rw [show constrain (1 : ℚ) 0 1 = 1 from by norm_num [constrain], hmain] at hred'
    norm_num at hred'

/-- C8 (amended): the interpolation formula is endpoint-exact in exact
arithmetic (`intermediateState A B 0 = A` and
`intermediateState A B 1 = B` over exact rationals); under the
source's single-precision evaluation the `t = 0` endpoint is still
exact for every representable input (the product with 0 and the
addition of 0 introduce no rounding); and once the accumulated time
reaches or exceeds the total fade duration, `animatePwmTransition`
pushes the stored target snapshot itself, bit-for-bit, and lowers the
fade flag — no interpolation is involved, so this is exact regardless
of `float` rounding.  At `t = 1` the single-precision evaluation can
land one ulp from the target (see the counterexample), so endpoint
exactness there holds only for the ideal formula, not the `float`
program. -/
theorem fade_boundary_exact (A B : AnalogLedsState) (a b : ℚ) (fs : FadeState)
    (t : Nat) (hrep : roundF32 a = a) (h : fs.totalTransitionTime ≤ t) :
    intermediateState A B 0 = A ∧
    intermediateState A B 1 = B ∧
    intermediateValueF32 a b 0 = a ∧
    animatePwmTransition fs t =
      ({ fs with pwmTransitionInProgress := false }, fs.targetState) := by
  refine ⟨?_, ?_, ?_, ?_⟩
  · cases A
    cases B
    simp only [intermediateState, intermediateValue, constrain]
    norm_num
  · cases A
    cases B
    simp only [intermediateState, intermediateValue, constrain]
    norm_num
  · unfold intermediateValueF32
    rw [zero_mul, roundF32_zero, add_zero, hrep]
  · unfold animatePwmTransition
    rw [if_pos h]

/-- C8 witness: concrete snapshots, the representable channel value
`1/4` probed at `t = 0` under `float` semantics, and a fade of total
duration 5 probed at accumulated time 7. -/
theorem fade_boundary_exact_witness :
    (roundF32 (1 / 4 : ℚ) = (1 / 4 : ℚ) ∧
      (FadeState.mk true (analogLedsState 0 1 0 1 0) (analogLedsState 1 0 0 0 1)
        5).totalTransitionTime ≤ 7) ∧
    (intermediateState (analogLedsState 0 1 0 1 0) (analogLedsState 1 0 0 0 1) 0 =
        analogLedsState 0 1 0 1 0 ∧
      intermediateState (analogLedsState 0 1 0 1 0) (analogLedsState 1 0 0 0 1) 1 =
        analogLedsState 1 0 0 0 1 ∧
      intermediateValueF32 (1 / 4) (3 / 4) 0 = 1 / 4 ∧
      animatePwmTransition
          (FadeState.mk true (analogLedsState 0 1 0 1 0) (analogLedsState 1 0 0 0 1) 5)
          7 =
        ({ FadeState.mk true (analogLedsState 0 1 0 1 0) (analogLedsState 1 0 0 0 1) 5
            with pwmTransitionInProgress := false },
          (FadeState.mk true (analogLedsState 0 1 0 1 0) (analogLedsState 1 0 0 0 1)
            5).targetState)) :=
  ⟨⟨roundF32_val_quarter, by decide⟩,
    fade_boundary_exact (analogLedsState 0 1 0 1 0) (analogLedsState 1 0 0 0 1)
      (1 / 4) (3 / 4)
      (FadeState.mk true (analogLedsState 0 1 0 1 0) (analogLedsState 1 0 0 0 1) 5) 7
      roundF32_val_quarter (by decide)⟩

/-- C9: a Repeater whose completed-iteration counter has reached its
maximum (including `M = 0`) returns done with the full elapsed time as
remainder, leaves its own and its child's state bit-for-bit unchanged,
and invokes no activation callback (the child's `doControl`/`reset` are
never entered). -/
theorem zero_repeater_frame (cfg : LCConfig) (s : LCState) (e : Nat)
    (h : cfg.maxLoopCount ≤ s.currentLoopCount) :
    LoopingController.doControl cfg s e = (finishedWorkState e, s, []) := by
  unfold LoopingController.doControl
  rw [show cfg.maxLoopCount - s.currentLoopCount = 0 from by omega]
  simp only [LoopingController.doControlAux]
  rw [if_pos h]

/-- C9 witness: an `M = 0` repeater handed 5 time units. -/
theorem zero_repeater_frame_witness :
    (LCConfig.mk (uniformDigitalCfg 2 10) 0).maxLoopCount ≤
      initialLCState.currentLoopCount ∧
    LoopingController.doControl (LCConfig.mk (uniformDigitalCfg 2 10) 0)
        initialLCState 5 =
      (finishedWorkState 5, initialLCState, []) :=
  ⟨by decide,
    zero_repeater_frame (LCConfig.mk (uniformDigitalCfg 2 10) 0) initialLCState 5
      (by decide)⟩

/-- C10: the division in `animatePwmTransition` is reached only on the
branch where `timeSpentOnCurrentState < _totalTransitionTime`, which
forces `_totalTransitionTime > 0` — so a zero-total fade can never
divide by zero; instead it takes the completion branch on its first
tick, pushing the exact target snapshot and lowering the fade flag. -/
theorem fade_zero_duration_safe (fs : FadeState) (t : Nat) :
    (t < fs.totalTransitionTime →
      0 < fs.totalTransitionTime ∧
      animatePwmTransition fs t =
        (fs, intermediateState fs.initialState fs.targetState
          ((t : ℚ) / (fs.totalTransitionTime : ℚ)))) ∧
    (fs.totalTransitionTime = 0 →
      animatePwmTransition fs t =
        ({ fs with pwmTransitionInProgress := false }, fs.targetState)) := by
  constructor
  · intro h
    refine ⟨by omega, ?_⟩
    unfold animatePwmTransition
    rw [if_neg (by omega)]
  · intro h
    unfold animatePwmTransition
    rw [if_pos (by omega)]

/-- C10 witness: a fade installed with total transition time 0,
probed on its first tick at accumulated time 3. -/
theorem fade_zero_duration_safe_witness :
    (FadeState.mk true allLedsOff allLedsOn 0).totalTransitionTime = 0 ∧
    animatePwmTransition (FadeState.mk true allLedsOff allLedsOn 0) 3 =
      ({ FadeState.mk true allLedsOff allLedsOn 0 with
          pwmTransitionInProgress := false },
        (FadeState.mk true allLedsOff allLedsOn 0).targetState) :=
  ⟨rfl, (fade_zero_duration_safe (FadeState.mk true allLedsOff allLedsOn 0) 3).2 rfl⟩

end Festive
